import Mathlib

/-!
Verification of the ConceptNet URI module (conceptnet5/uri.py).

Strings are modelled as lists of Unicode characters (`List Char`), which is
how Python 3 treats `str` values.  Each Python function of the module is
translated below into an executable Lean definition operating on `List Char`;
Python string methods used by the module (`strip`, `lstrip`, `split`, `join`,
`lower`, `replace`) are given explicit list-level models first.
-/

/-- Convert a Lean string literal to the character-list representation used
throughout this development. -/
def uriOf (s : String) : List Char := s.data

/-- Model of Python `text.strip(chars)` restricted to a character predicate:
removes the longest run of characters satisfying `p` from both ends. -/
def pyStrip (p : Char → Bool) (l : List Char) : List Char :=
  ((l.dropWhile p).reverse.dropWhile p).reverse

/-- Predicate for the slash character, the separator of URI segments. -/
def isSlash (c : Char) : Bool := c == '/'

/-- Model of Python `piece.strip(slash)` as used by `join_uri` and
`parse_compound_uri`. -/
def stripSlash (l : List Char) : List Char := pyStrip isSlash l

/-- Model of Python `uri.split(slash)`: splits on every slash, keeping empty
segments, and returns one (possibly empty) segment even for the empty
string, exactly as `str.split` with an explicit separator does. -/
def splitSlash : List Char → List (List Char)
  | [] => [[]]
  | c :: rest =>
    if c = '/' then [] :: splitSlash rest
    else (c :: (splitSlash rest).headD []) :: (splitSlash rest).tail

/-- Model of Python `slash.join(pieces)`: concatenates the pieces with a
single slash between consecutive pieces. -/
def joinSlash : List (List Char) → List Char
  | [] => []
  | [s] => s
  | s :: t :: rest => s ++ '/' :: joinSlash (t :: rest)

/-- The whitespace codepoints of Python `str.strip()` with no argument,
which strips exactly the characters satisfying `str.isspace`: the ASCII
whitespace and separator controls, next line, no-break space, ogham space
mark, the general punctuation spaces U+2000 to U+200A, the line and
paragraph separators, narrow no-break space, medium mathematical space and
ideographic space (Unicode 14.0.0 as in CPython 3.11). -/
def pySpaceCodes : List Nat :=
  [9, 10, 11, 12, 13, 28, 29, 30, 31, 32, 133, 160, 5760,
   8192, 8193, 8194, 8195, 8196, 8197, 8198, 8199, 8200, 8201, 8202,
   8232, 8233, 8239, 8287, 12288]

/-- Predicate for the characters stripped by Python `str.strip()`. -/
def pyIsSpace (c : Char) : Bool := pySpaceCodes.contains c.toNat

set_option maxHeartbeats 4000000 in
/-- The full lowercase mapping of Python `str.lower()`: every codepoint
whose lowercase form differs from itself, paired with the codepoints it
maps to (a single codepoint everywhere except U+0130, which maps to two).
Generated from the Unicode 14.0.0 character database as used by CPython
3.11; bucketed by codepoint divided by 64 so that lookups stay cheap. -/
def lowerBuckets : List (Nat × List (Nat × List Nat)) := [
  (1, [(65, [97]), (66, [98]), (67, [99]), (68, [100]), (69, [101]), (70, [102]), (71, [103]),
    (72, [104]), (73, [105]), (74, [106]), (75, [107]), (76, [108]), (77, [109]), (78, [110]),
    (79, [111]), (80, [112]), (81, [113]), (82, [114]), (83, [115]), (84, [116]), (85, [117]),
    (86, [118]), (87, [119]), (88, [120]), (89, [121]), (90, [122])]),
  (3, [(192, [224]), (193, [225]), (194, [226]), (195, [227]), (196, [228]), (197, [229]),
    (198, [230]), (199, [231]), (200, [232]), (201, [233]), (202, [234]), (203, [235]),
    (204, [236]), (205, [237]), (206, [238]), (207, [239]), (208, [240]), (209, [241]),
    (210, [242]), (211, [243]), (212, [244]), (213, [245]), (214, [246]), (216, [248]),
    (217, [249]), (218, [250]), (219, [251]), (220, [252]), (221, [253]), (222, [254])]),
  (4, [(256, [257]), (258, [259]), (260, [261]), (262, [263]), (264, [265]), (266, [267]),
    (268, [269]), (270, [271]), (272, [273]), (274, [275]), (276, [277]), (278, [279]),
    (280, [281]), (282, [283]), (284, [285]), (286, [287]), (288, [289]), (290, [291]),
    (292, [293]), (294, [295]), (296, [297]), (298, [299]), (300, [301]), (302, [303]),
    (304, [105, 775]), (306, [307]), (308, [309]), (310, [311]), (313, [314]), (315, [316]),
    (317, [318]), (319, [320])]),
  (5, [(321, [322]), (323, [324]), (325, [326]), (327, [328]), (330, [331]), (332, [333]),
    (334, [335]), (336, [337]), (338, [339]), (340, [341]), (342, [343]), (344, [345]),
    (346, [347]), (348, [349]), (350, [351]), (352, [353]), (354, [355]), (356, [357]),
    (358, [359]), (360, [361]), (362, [363]), (364, [365]), (366, [367]), (368, [369]),
    (370, [371]), (372, [373]), (374, [375]), (376, [255]), (377, [378]), (379, [380]),
    (381, [382])]),
  (6, [(385, [595]), (386, [387]), (388, [389]), (390, [596]), (391, [392]), (393, [598]),
    (394, [599]), (395, [396]), (398, [477]), (399, [601]), (400, [603]), (401, [402]),
    (403, [608]), (404, [611]), (406, [617]), (407, [616]), (408, [409]), (412, [623]),
    (413, [626]), (415, [629]), (416, [417]), (418, [419]), (420, [421]), (422, [640]),
    (423, [424]), (425, [643]), (428, [429]), (430, [648]), (431, [432]), (433, [650]),
    (434, [651]), (435, [436]), (437, [438]), (439, [658]), (440, [441]), (444, [445])]),
  (7, [(452, [454]), (453, [454]), (455, [457]), (456, [457]), (458, [460]), (459, [460]),
    (461, [462]), (463, [464]), (465, [466]), (467, [468]), (469, [470]), (471, [472]),
    (473, [474]), (475, [476]), (478, [479]), (480, [481]), (482, [483]), (484, [485]),
    (486, [487]), (488, [489]), (490, [491]), (492, [493]), (494, [495]), (497, [499]),
    (498, [499]), (500, [501]), (502, [405]), (503, [447]), (504, [505]), (506, [507]),
    (508, [509]), (510, [511])]),
  (8, [(512, [513]), (514, [515]), (516, [517]), (518, [519]), (520, [521]), (522, [523]),
    (524, [525]), (526, [527]), (528, [529]), (530, [531]), (532, [533]), (534, [535]),
    (536, [537]), (538, [539]), (540, [541]), (542, [543]), (544, [414]), (546, [547]),
    (548, [549]), (550, [551]), (552, [553]), (554, [555]), (556, [557]), (558, [559]),
    (560, [561]), (562, [563]), (570, [11365]), (571, [572]), (573, [410]), (574, [11366])]),
  (9, [(577, [578]), (579, [384]), (580, [649]), (581, [652]), (582, [583]), (584, [585]),
    (586, [587]), (588, [589]), (590, [591])]),
  (13, [(880, [881]), (882, [883]), (886, [887]), (895, [1011])]),
  (14, [(902, [940]), (904, [941]), (905, [942]), (906, [943]), (908, [972]), (910, [973]),
    (911, [974]), (913, [945]), (914, [946]), (915, [947]), (916, [948]), (917, [949]),
    (918, [950]), (919, [951]), (920, [952]), (921, [953]), (922, [954]), (923, [955]),
    (924, [956]), (925, [957]), (926, [958]), (927, [959]), (928, [960]), (929, [961]),
    (931, [963]), (932, [964]), (933, [965]), (934, [966]), (935, [967]), (936, [968]),
    (937, [969]), (938, [970]), (939, [971])]),
  (15, [(975, [983]), (984, [985]), (986, [987]), (988, [989]), (990, [991]), (992, [993]),
    (994, [995]), (996, [997]), (998, [999]), (1000, [1001]), (1002, [1003]), (1004, [1005]),
    (1006, [1007]), (1012, [952]), (1015, [1016]), (1017, [1010]), (1018, [1019]),
    (1021, [891]), (1022, [892]), (1023, [893])]),
  (16, [(1024, [1104]), (1025, [1105]), (1026, [1106]), (1027, [1107]), (1028, [1108]),
    (1029, [1109]), (1030, [1110]), (1031, [1111]), (1032, [1112]), (1033, [1113]),
    (1034, [1114]), (1035, [1115]), (1036, [1116]), (1037, [1117]), (1038, [1118]),
    (1039, [1119]), (1040, [1072]), (1041, [1073]), (1042, [1074]), (1043, [1075]),
    (1044, [1076]), (1045, [1077]), (1046, [1078]), (1047, [1079]), (1048, [1080]),
    (1049, [1081]), (1050, [1082]), (1051, [1083]), (1052, [1084]), (1053, [1085]),
    (1054, [1086]), (1055, [1087]), (1056, [1088]), (1057, [1089]), (1058, [1090]),
    (1059, [1091]), (1060, [1092]), (1061, [1093]), (1062, [1094]), (1063, [1095]),
    (1064, [1096]), (1065, [1097]), (1066, [1098]), (1067, [1099]), (1068, [1100]),
    (1069, [1101]), (1070, [1102]), (1071, [1103])]),
  (17, [(1120, [1121]), (1122, [1123]), (1124, [1125]), (1126, [1127]), (1128, [1129]),
    (1130, [1131]), (1132, [1133]), (1134, [1135]), (1136, [1137]), (1138, [1139]),
    (1140, [1141]), (1142, [1143]), (1144, [1145]), (1146, [1147]), (1148, [1149]),
    (1150, [1151])]),
  (18, [(1152, [1153]), (1162, [1163]), (1164, [1165]), (1166, [1167]), (1168, [1169]),
    (1170, [1171]), (1172, [1173]), (1174, [1175]), (1176, [1177]), (1178, [1179]),
    (1180, [1181]), (1182, [1183]), (1184, [1185]), (1186, [1187]), (1188, [1189]),
    (1190, [1191]), (1192, [1193]), (1194, [1195]), (1196, [1197]), (1198, [1199]),
    (1200, [1201]), (1202, [1203]), (1204, [1205]), (1206, [1207]), (1208, [1209]),
    (1210, [1211]), (1212, [1213]), (1214, [1215])]),
  (19, [(1216, [1231]), (1217, [1218]), (1219, [1220]), (1221, [1222]), (1223, [1224]),
    (1225, [1226]), (1227, [1228]), (1229, [1230]), (1232, [1233]), (1234, [1235]),
    (1236, [1237]), (1238, [1239]), (1240, [1241]), (1242, [1243]), (1244, [1245]),
    (1246, [1247]), (1248, [1249]), (1250, [1251]), (1252, [1253]), (1254, [1255]),
    (1256, [1257]), (1258, [1259]), (1260, [1261]), (1262, [1263]), (1264, [1265]),
    (1266, [1267]), (1268, [1269]), (1270, [1271]), (1272, [1273]), (1274, [1275]),
    (1276, [1277]), (1278, [1279])]),
  (20, [(1280, [1281]), (1282, [1283]), (1284, [1285]), (1286, [1287]), (1288, [1289]),
    (1290, [1291]), (1292, [1293]), (1294, [1295]), (1296, [1297]), (1298, [1299]),
    (1300, [1301]), (1302, [1303]), (1304, [1305]), (1306, [1307]), (1308, [1309]),
    (1310, [1311]), (1312, [1313]), (1314, [1315]), (1316, [1317]), (1318, [1319]),
    (1320, [1321]), (1322, [1323]), (1324, [1325]), (1326, [1327]), (1329, [1377]),
    (1330, [1378]), (1331, [1379]), (1332, [1380]), (1333, [1381]), (1334, [1382]),
    (1335, [1383]), (1336, [1384]), (1337, [1385]), (1338, [1386]), (1339, [1387]),
    (1340, [1388]), (1341, [1389]), (1342, [1390]), (1343, [1391])]),
  (21, [(1344, [1392]), (1345, [1393]), (1346, [1394]), (1347, [1395]), (1348, [1396]),
    (1349, [1397]), (1350, [1398]), (1351, [1399]), (1352, [1400]), (1353, [1401]),
    (1354, [1402]), (1355, [1403]), (1356, [1404]), (1357, [1405]), (1358, [1406]),
    (1359, [1407]), (1360, [1408]), (1361, [1409]), (1362, [1410]), (1363, [1411]),
    (1364, [1412]), (1365, [1413]), (1366, [1414])]),
  (66, [(4256, [11520]), (4257, [11521]), (4258, [11522]), (4259, [11523]), (4260, [11524]),
    (4261, [11525]), (4262, [11526]), (4263, [11527]), (4264, [11528]), (4265, [11529]),
    (4266, [11530]), (4267, [11531]), (4268, [11532]), (4269, [11533]), (4270, [11534]),
    (4271, [11535]), (4272, [11536]), (4273, [11537]), (4274, [11538]), (4275, [11539]),
    (4276, [11540]), (4277, [11541]), (4278, [11542]), (4279, [11543]), (4280, [11544]),
    (4281, [11545]), (4282, [11546]), (4283, [11547]), (4284, [11548]), (4285, [11549]),
    (4286, [11550]), (4287, [11551])]),
  (67, [(4288, [11552]), (4289, [11553]), (4290, [11554]), (4291, [11555]), (4292, [11556]),
    (4293, [11557]), (4295, [11559]), (4301, [11565])]),
  (78, [(5024, [43888]), (5025, [43889]), (5026, [43890]), (5027, [43891]), (5028, [43892]),
    (5029, [43893]), (5030, [43894]), (5031, [43895]), (5032, [43896]), (5033, [43897]),
    (5034, [43898]), (5035, [43899]), (5036, [43900]), (5037, [43901]), (5038, [43902]),
    (5039, [43903]), (5040, [43904]), (5041, [43905]), (5042, [43906]), (5043, [43907]),
    (5044, [43908]), (5045, [43909]), (5046, [43910]), (5047, [43911]), (5048, [43912]),
    (5049, [43913]), (5050, [43914]), (5051, [43915]), (5052, [43916]), (5053, [43917]),
    (5054, [43918]), (5055, [43919])]),
  (79, [(5056, [43920]), (5057, [43921]), (5058, [43922]), (5059, [43923]), (5060, [43924]),
    (5061, [43925]), (5062, [43926]), (5063, [43927]), (5064, [43928]), (5065, [43929]),
    (5066, [43930]), (5067, [43931]), (5068, [43932]), (5069, [43933]), (5070, [43934]),
    (5071, [43935]), (5072, [43936]), (5073, [43937]), (5074, [43938]), (5075, [43939]),
    (5076, [43940]), (5077, [43941]), (5078, [43942]), (5079, [43943]), (5080, [43944]),
    (5081, [43945]), (5082, [43946]), (5083, [43947]), (5084, [43948]), (5085, [43949]),
    (5086, [43950]), (5087, [43951]), (5088, [43952]), (5089, [43953]), (5090, [43954]),
    (5091, [43955]), (5092, [43956]), (5093, [43957]), (5094, [43958]), (5095, [43959]),
    (5096, [43960]), (5097, [43961]), (5098, [43962]), (5099, [43963]), (5100, [43964]),
    (5101, [43965]), (5102, [43966]), (5103, [43967]), (5104, [5112]), (5105, [5113]),
    (5106, [5114]), (5107, [5115]), (5108, [5116]), (5109, [5117])]),
  (114, [(7312, [4304]), (7313, [4305]), (7314, [4306]), (7315, [4307]), (7316, [4308]),
    (7317, [4309]), (7318, [4310]), (7319, [4311]), (7320, [4312]), (7321, [4313]),
    (7322, [4314]), (7323, [4315]), (7324, [4316]), (7325, [4317]), (7326, [4318]),
    (7327, [4319]), (7328, [4320]), (7329, [4321]), (7330, [4322]), (7331, [4323]),
    (7332, [4324]), (7333, [4325]), (7334, [4326]), (7335, [4327]), (7336, [4328]),
    (7337, [4329]), (7338, [4330]), (7339, [4331]), (7340, [4332]), (7341, [4333]),
    (7342, [4334]), (7343, [4335]), (7344, [4336]), (7345, [4337]), (7346, [4338]),
    (7347, [4339]), (7348, [4340]), (7349, [4341]), (7350, [4342]), (7351, [4343]),
    (7352, [4344]), (7353, [4345]), (7354, [4346]), (7357, [4349]), (7358, [4350]),
    (7359, [4351])]),
  (120, [(7680, [7681]), (7682, [7683]), (7684, [7685]), (7686, [7687]), (7688, [7689]),
    (7690, [7691]), (7692, [7693]), (7694, [7695]), (7696, [7697]), (7698, [7699]),
    (7700, [7701]), (7702, [7703]), (7704, [7705]), (7706, [7707]), (7708, [7709]),
    (7710, [7711]), (7712, [7713]), (7714, [7715]), (7716, [7717]), (7718, [7719]),
    (7720, [7721]), (7722, [7723]), (7724, [7725]), (7726, [7727]), (7728, [7729]),
    (7730, [7731]), (7732, [7733]), (7734, [7735]), (7736, [7737]), (7738, [7739]),
    (7740, [7741]), (7742, [7743])]),
  (121, [(7744, [7745]), (7746, [7747]), (7748, [7749]), (7750, [7751]), (7752, [7753]),
    (7754, [7755]), (7756, [7757]), (7758, [7759]), (7760, [7761]), (7762, [7763]),
    (7764, [7765]), (7766, [7767]), (7768, [7769]), (7770, [7771]), (7772, [7773]),
    (7774, [7775]), (7776, [7777]), (7778, [7779]), (7780, [7781]), (7782, [7783]),
    (7784, [7785]), (7786, [7787]), (7788, [7789]), (7790, [7791]), (7792, [7793]),
    (7794, [7795]), (7796, [7797]), (7798, [7799]), (7800, [7801]), (7802, [7803]),
    (7804, [7805]), (7806, [7807])]),
  (122, [(7808, [7809]), (7810, [7811]), (7812, [7813]), (7814, [7815]), (7816, [7817]),
    (7818, [7819]), (7820, [7821]), (7822, [7823]), (7824, [7825]), (7826, [7827]),
    (7828, [7829]), (7838, [223]), (7840, [7841]), (7842, [7843]), (7844, [7845]),
    (7846, [7847]), (7848, [7849]), (7850, [7851]), (7852, [7853]), (7854, [7855]),
    (7856, [7857]), (7858, [7859]), (7860, [7861]), (7862, [7863]), (7864, [7865]),
    (7866, [7867]), (7868, [7869]), (7870, [7871])]),
  (123, [(7872, [7873]), (7874, [7875]), (7876, [7877]), (7878, [7879]), (7880, [7881]),
    (7882, [7883]), (7884, [7885]), (7886, [7887]), (7888, [7889]), (7890, [7891]),
    (7892, [7893]), (7894, [7895]), (7896, [7897]), (7898, [7899]), (7900, [7901]),
    (7902, [7903]), (7904, [7905]), (7906, [7907]), (7908, [7909]), (7910, [7911]),
    (7912, [7913]), (7914, [7915]), (7916, [7917]), (7918, [7919]), (7920, [7921]),
    (7922, [7923]), (7924, [7925]), (7926, [7927]), (7928, [7929]), (7930, [7931]),
    (7932, [7933]), (7934, [7935])]),
  (124, [(7944, [7936]), (7945, [7937]), (7946, [7938]), (7947, [7939]), (7948, [7940]),
    (7949, [7941]), (7950, [7942]), (7951, [7943]), (7960, [7952]), (7961, [7953]),
    (7962, [7954]), (7963, [7955]), (7964, [7956]), (7965, [7957]), (7976, [7968]),
    (7977, [7969]), (7978, [7970]), (7979, [7971]), (7980, [7972]), (7981, [7973]),
    (7982, [7974]), (7983, [7975]), (7992, [7984]), (7993, [7985]), (7994, [7986]),
    (7995, [7987]), (7996, [7988]), (7997, [7989]), (7998, [7990]), (7999, [7991])]),
  (125, [(8008, [8000]), (8009, [8001]), (8010, [8002]), (8011, [8003]), (8012, [8004]),
    (8013, [8005]), (8025, [8017]), (8027, [8019]), (8029, [8021]), (8031, [8023]),
    (8040, [8032]), (8041, [8033]), (8042, [8034]), (8043, [8035]), (8044, [8036]),
    (8045, [8037]), (8046, [8038]), (8047, [8039])]),
  (126, [(8072, [8064]), (8073, [8065]), (8074, [8066]), (8075, [8067]), (8076, [8068]),
    (8077, [8069]), (8078, [8070]), (8079, [8071]), (8088, [8080]), (8089, [8081]),
    (8090, [8082]), (8091, [8083]), (8092, [8084]), (8093, [8085]), (8094, [8086]),
    (8095, [8087]), (8104, [8096]), (8105, [8097]), (8106, [8098]), (8107, [8099]),
    (8108, [8100]), (8109, [8101]), (8110, [8102]), (8111, [8103]), (8120, [8112]),
    (8121, [8113]), (8122, [8048]), (8123, [8049]), (8124, [8115])]),
  (127, [(8136, [8050]), (8137, [8051]), (8138, [8052]), (8139, [8053]), (8140, [8131]),
    (8152, [8144]), (8153, [8145]), (8154, [8054]), (8155, [8055]), (8168, [8160]),
    (8169, [8161]), (8170, [8058]), (8171, [8059]), (8172, [8165]), (8184, [8056]),
    (8185, [8057]), (8186, [8060]), (8187, [8061]), (8188, [8179])]),
  (132, [(8486, [969]), (8490, [107]), (8491, [229]), (8498, [8526])]),
  (133, [(8544, [8560]), (8545, [8561]), (8546, [8562]), (8547, [8563]), (8548, [8564]),
    (8549, [8565]), (8550, [8566]), (8551, [8567]), (8552, [8568]), (8553, [8569]),
    (8554, [8570]), (8555, [8571]), (8556, [8572]), (8557, [8573]), (8558, [8574]),
    (8559, [8575])]),
  (134, [(8579, [8580])]),
  (146, [(9398, [9424]), (9399, [9425]), (9400, [9426]), (9401, [9427]), (9402, [9428]),
    (9403, [9429]), (9404, [9430]), (9405, [9431]), (9406, [9432]), (9407, [9433])]),
  (147, [(9408, [9434]), (9409, [9435]), (9410, [9436]), (9411, [9437]), (9412, [9438]),
    (9413, [9439]), (9414, [9440]), (9415, [9441]), (9416, [9442]), (9417, [9443]),
    (9418, [9444]), (9419, [9445]), (9420, [9446]), (9421, [9447]), (9422, [9448]),
    (9423, [9449])]),
  (176, [(11264, [11312]), (11265, [11313]), (11266, [11314]), (11267, [11315]),
    (11268, [11316]), (11269, [11317]), (11270, [11318]), (11271, [11319]), (11272, [11320]),
    (11273, [11321]), (11274, [11322]), (11275, [11323]), (11276, [11324]), (11277, [11325]),
    (11278, [11326]), (11279, [11327]), (11280, [11328]), (11281, [11329]), (11282, [11330]),
    (11283, [11331]), (11284, [11332]), (11285, [11333]), (11286, [11334]), (11287, [11335]),
    (11288, [11336]), (11289, [11337]), (11290, [11338]), (11291, [11339]), (11292, [11340]),
    (11293, [11341]), (11294, [11342]), (11295, [11343]), (11296, [11344]), (11297, [11345]),
    (11298, [11346]), (11299, [11347]), (11300, [11348]), (11301, [11349]), (11302, [11350]),
    (11303, [11351]), (11304, [11352]), (11305, [11353]), (11306, [11354]), (11307, [11355]),
    (11308, [11356]), (11309, [11357]), (11310, [11358]), (11311, [11359])]),
  (177, [(11360, [11361]), (11362, [619]), (11363, [7549]), (11364, [637]), (11367, [11368]),
    (11369, [11370]), (11371, [11372]), (11373, [593]), (11374, [625]), (11375, [592]),
    (11376, [594]), (11378, [11379]), (11381, [11382]), (11390, [575]), (11391, [576])]),
  (178, [(11392, [11393]), (11394, [11395]), (11396, [11397]), (11398, [11399]),
    (11400, [11401]), (11402, [11403]), (11404, [11405]), (11406, [11407]), (11408, [11409]),
    (11410, [11411]), (11412, [11413]), (11414, [11415]), (11416, [11417]), (11418, [11419]),
    (11420, [11421]), (11422, [11423]), (11424, [11425]), (11426, [11427]), (11428, [11429]),
    (11430, [11431]), (11432, [11433]), (11434, [11435]), (11436, [11437]), (11438, [11439]),
    (11440, [11441]), (11442, [11443]), (11444, [11445]), (11446, [11447]), (11448, [11449]),
    (11450, [11451]), (11452, [11453]), (11454, [11455])]),
  (179, [(11456, [11457]), (11458, [11459]), (11460, [11461]), (11462, [11463]),
    (11464, [11465]), (11466, [11467]), (11468, [11469]), (11470, [11471]), (11472, [11473]),
    (11474, [11475]), (11476, [11477]), (11478, [11479]), (11480, [11481]), (11482, [11483]),
    (11484, [11485]), (11486, [11487]), (11488, [11489]), (11490, [11491]), (11499, [11500]),
    (11501, [11502]), (11506, [11507])]),
  (665, [(42560, [42561]), (42562, [42563]), (42564, [42565]), (42566, [42567]),
    (42568, [42569]), (42570, [42571]), (42572, [42573]), (42574, [42575]), (42576, [42577]),
    (42578, [42579]), (42580, [42581]), (42582, [42583]), (42584, [42585]), (42586, [42587]),
    (42588, [42589]), (42590, [42591]), (42592, [42593]), (42594, [42595]), (42596, [42597]),
    (42598, [42599]), (42600, [42601]), (42602, [42603]), (42604, [42605])]),
  (666, [(42624, [42625]), (42626, [42627]), (42628, [42629]), (42630, [42631]),
    (42632, [42633]), (42634, [42635]), (42636, [42637]), (42638, [42639]), (42640, [42641]),
    (42642, [42643]), (42644, [42645]), (42646, [42647]), (42648, [42649]), (42650, [42651])]),
  (668, [(42786, [42787]), (42788, [42789]), (42790, [42791]), (42792, [42793]),
    (42794, [42795]), (42796, [42797]), (42798, [42799]), (42802, [42803]), (42804, [42805]),
    (42806, [42807]), (42808, [42809]), (42810, [42811]), (42812, [42813]), (42814, [42815])]),
  (669, [(42816, [42817]), (42818, [42819]), (42820, [42821]), (42822, [42823]),
    (42824, [42825]), (42826, [42827]), (42828, [42829]), (42830, [42831]), (42832, [42833]),
    (42834, [42835]), (42836, [42837]), (42838, [42839]), (42840, [42841]), (42842, [42843]),
    (42844, [42845]), (42846, [42847]), (42848, [42849]), (42850, [42851]), (42852, [42853]),
    (42854, [42855]), (42856, [42857]), (42858, [42859]), (42860, [42861]), (42862, [42863]),
    (42873, [42874]), (42875, [42876]), (42877, [7545]), (42878, [42879])]),
  (670, [(42880, [42881]), (42882, [42883]), (42884, [42885]), (42886, [42887]),
    (42891, [42892]), (42893, [613]), (42896, [42897]), (42898, [42899]), (42902, [42903]),
    (42904, [42905]), (42906, [42907]), (42908, [42909]), (42910, [42911]), (42912, [42913]),
    (42914, [42915]), (42916, [42917]), (42918, [42919]), (42920, [42921]), (42922, [614]),
    (42923, [604]), (42924, [609]), (42925, [620]), (42926, [618]), (42928, [670]),
    (42929, [647]), (42930, [669]), (42931, [43859]), (42932, [42933]), (42934, [42935]),
    (42936, [42937]), (42938, [42939]), (42940, [42941]), (42942, [42943])]),
  (671, [(42944, [42945]), (42946, [42947]), (42948, [42900]), (42949, [642]), (42950, [7566]),
    (42951, [42952]), (42953, [42954]), (42960, [42961]), (42966, [42967]), (42968, [42969]),
    (42997, [42998])]),
  (1020, [(65313, [65345]), (65314, [65346]), (65315, [65347]), (65316, [65348]),
    (65317, [65349]), (65318, [65350]), (65319, [65351]), (65320, [65352]), (65321, [65353]),
    (65322, [65354]), (65323, [65355]), (65324, [65356]), (65325, [65357]), (65326, [65358]),
    (65327, [65359]), (65328, [65360]), (65329, [65361]), (65330, [65362]), (65331, [65363]),
    (65332, [65364]), (65333, [65365]), (65334, [65366]), (65335, [65367]), (65336, [65368]),
    (65337, [65369]), (65338, [65370])]),
  (1040, [(66560, [66600]), (66561, [66601]), (66562, [66602]), (66563, [66603]),
    (66564, [66604]), (66565, [66605]), (66566, [66606]), (66567, [66607]), (66568, [66608]),
    (66569, [66609]), (66570, [66610]), (66571, [66611]), (66572, [66612]), (66573, [66613]),
    (66574, [66614]), (66575, [66615]), (66576, [66616]), (66577, [66617]), (66578, [66618]),
    (66579, [66619]), (66580, [66620]), (66581, [66621]), (66582, [66622]), (66583, [66623]),
    (66584, [66624]), (66585, [66625]), (66586, [66626]), (66587, [66627]), (66588, [66628]),
    (66589, [66629]), (66590, [66630]), (66591, [66631]), (66592, [66632]), (66593, [66633]),
    (66594, [66634]), (66595, [66635]), (66596, [66636]), (66597, [66637]), (66598, [66638]),
    (66599, [66639])]),
  (1042, [(66736, [66776]), (66737, [66777]), (66738, [66778]), (66739, [66779]),
    (66740, [66780]), (66741, [66781]), (66742, [66782]), (66743, [66783]), (66744, [66784]),
    (66745, [66785]), (66746, [66786]), (66747, [66787]), (66748, [66788]), (66749, [66789]),
    (66750, [66790]), (66751, [66791])]),
  (1043, [(66752, [66792]), (66753, [66793]), (66754, [66794]), (66755, [66795]),
    (66756, [66796]), (66757, [66797]), (66758, [66798]), (66759, [66799]), (66760, [66800]),
    (66761, [66801]), (66762, [66802]), (66763, [66803]), (66764, [66804]), (66765, [66805]),
    (66766, [66806]), (66767, [66807]), (66768, [66808]), (66769, [66809]), (66770, [66810]),
    (66771, [66811])]),
  (1045, [(66928, [66967]), (66929, [66968]), (66930, [66969]), (66931, [66970]),
    (66932, [66971]), (66933, [66972]), (66934, [66973]), (66935, [66974]), (66936, [66975]),
    (66937, [66976]), (66938, [66977]), (66940, [66979]), (66941, [66980]), (66942, [66981]),
    (66943, [66982])]),
  (1046, [(66944, [66983]), (66945, [66984]), (66946, [66985]), (66947, [66986]),
    (66948, [66987]), (66949, [66988]), (66950, [66989]), (66951, [66990]), (66952, [66991]),
    (66953, [66992]), (66954, [66993]), (66956, [66995]), (66957, [66996]), (66958, [66997]),
    (66959, [66998]), (66960, [66999]), (66961, [67000]), (66962, [67001]), (66964, [67003]),
    (66965, [67004])]),
  (1074, [(68736, [68800]), (68737, [68801]), (68738, [68802]), (68739, [68803]),
    (68740, [68804]), (68741, [68805]), (68742, [68806]), (68743, [68807]), (68744, [68808]),
    (68745, [68809]), (68746, [68810]), (68747, [68811]), (68748, [68812]), (68749, [68813]),
    (68750, [68814]), (68751, [68815]), (68752, [68816]), (68753, [68817]), (68754, [68818]),
    (68755, [68819]), (68756, [68820]), (68757, [68821]), (68758, [68822]), (68759, [68823]),
    (68760, [68824]), (68761, [68825]), (68762, [68826]), (68763, [68827]), (68764, [68828]),
    (68765, [68829]), (68766, [68830]), (68767, [68831]), (68768, [68832]), (68769, [68833]),
    (68770, [68834]), (68771, [68835]), (68772, [68836]), (68773, [68837]), (68774, [68838]),
    (68775, [68839]), (68776, [68840]), (68777, [68841]), (68778, [68842]), (68779, [68843]),
    (68780, [68844]), (68781, [68845]), (68782, [68846]), (68783, [68847]), (68784, [68848]),
    (68785, [68849]), (68786, [68850])]),
  (1122, [(71840, [71872]), (71841, [71873]), (71842, [71874]), (71843, [71875]),
    (71844, [71876]), (71845, [71877]), (71846, [71878]), (71847, [71879]), (71848, [71880]),
    (71849, [71881]), (71850, [71882]), (71851, [71883]), (71852, [71884]), (71853, [71885]),
    (71854, [71886]), (71855, [71887]), (71856, [71888]), (71857, [71889]), (71858, [71890]),
    (71859, [71891]), (71860, [71892]), (71861, [71893]), (71862, [71894]), (71863, [71895]),
    (71864, [71896]), (71865, [71897]), (71866, [71898]), (71867, [71899]), (71868, [71900]),
    (71869, [71901]), (71870, [71902]), (71871, [71903])]),
  (1465, [(93760, [93792]), (93761, [93793]), (93762, [93794]), (93763, [93795]),
    (93764, [93796]), (93765, [93797]), (93766, [93798]), (93767, [93799]), (93768, [93800]),
    (93769, [93801]), (93770, [93802]), (93771, [93803]), (93772, [93804]), (93773, [93805]),
    (93774, [93806]), (93775, [93807]), (93776, [93808]), (93777, [93809]), (93778, [93810]),
    (93779, [93811]), (93780, [93812]), (93781, [93813]), (93782, [93814]), (93783, [93815]),
    (93784, [93816]), (93785, [93817]), (93786, [93818]), (93787, [93819]), (93788, [93820]),
    (93789, [93821]), (93790, [93822]), (93791, [93823])]),
  (1956, [(125184, [125218]), (125185, [125219]), (125186, [125220]), (125187, [125221]),
    (125188, [125222]), (125189, [125223]), (125190, [125224]), (125191, [125225]),
    (125192, [125226]), (125193, [125227]), (125194, [125228]), (125195, [125229]),
    (125196, [125230]), (125197, [125231]), (125198, [125232]), (125199, [125233]),
    (125200, [125234]), (125201, [125235]), (125202, [125236]), (125203, [125237]),
    (125204, [125238]), (125205, [125239]), (125206, [125240]), (125207, [125241]),
    (125208, [125242]), (125209, [125243]), (125210, [125244]), (125211, [125245]),
    (125212, [125246]), (125213, [125247]), (125214, [125248]), (125215, [125249]),
    (125216, [125250]), (125217, [125251])])
  ]

/-- Lookup of a codepoint in the bucketed lowercase table. -/
def lowerLookup (n : Nat) : Option (List Nat) :=
  match lowerBuckets.lookup (n / 64) with
  | some bucket => bucket.lookup n
  | none => none

/-- Character-level model of Python `str.lower()`: the full Unicode
lowercase mapping from the table above, a character without an entry being
unchanged.  The result is a list of characters because the mapping of
U+0130 has two of them. -/
def pyLowerChar (c : Char) : List Char :=
  match lowerLookup c.toNat with
  | some ns => ns.map Char.ofNat
  | none => [c]

/-- Model of Python `str.lower()` on a whole string. -/
def pyLower (l : List Char) : List Char := l.flatMap pyLowerChar

/-- Character-wise model of Python `text.replace` of a space by an
underscore. -/
def pyReplaceSpace (c : Char) : Char := if c = ' ' then '_' else c

/-- Translation of `normalize_text`.  The external collaborator `ftfy.fix_text`
is opaque (out of scope per the module boundary), so it is passed in as the
function argument `fixText`.  The Python `isinstance` check rejecting byte
strings is not representable here because a `List Char` is always genuine
text.  After the repair step the source computes
`fix_text(text).strip().lower().replace(space, underscore)`. -/
def normalize_text (fixText : List Char → List Char) (text : List Char) : List Char :=
  (pyLower (pyStrip pyIsSpace (fixText text))).map pyReplaceSpace

/-- Translation of `join_uri`: a slash followed by the slash-join of the
pieces, each piece first stripped of its leading and trailing slashes. -/
def join_uri (pieces : List (List Char)) : List Char :=
  '/' :: joinSlash (pieces.map stripSlash)

/-- Failure values of the module.  Python raises `ValueError` with distinct
messages; each distinct message is one constructor, and `typeError` stands
for the dynamic-typing failure Python raises when a string method is called
on a non-string. -/
inductive UriError
  | invalidArgument
  | mustEndWithBracket
  | mustContainBracket
  | emptyConjunction
  | emptyDisjunction
  | typeError

deriving DecidableEq

deriving instance DecidableEq for Except

/-- Translation of `concept_uri`.  `pos` and `disambiguation` are the two
optional trailing arguments of the Python signature. -/
def concept_uri (fixText : List Char → List Char) (lang text : List Char)
    (pos disambiguation : Option (List Char)) : Except UriError (List Char) :=
  let n_text := normalize_text fixText text
  match pos with
  | none =>
    match disambiguation with
    | some _ => Except.error UriError.invalidArgument
    | none => Except.ok (join_uri [uriOf "/c", lang, n_text])
  | some p =>
    match disambiguation with
    | none => Except.ok (join_uri [uriOf "/c", lang, n_text, p])
    | some d => Except.ok (join_uri [uriOf "/c", lang, n_text, p, normalize_text fixText d])

/-- The item list built by the loop of `compound_uri`: the first argument is
appended bare, every later argument is preceded by a separator comma
segment (the `first_item` flag of the source). -/
def commaItems : List (List Char) → List (List Char)
  | [] => []
  | a :: rest => a :: rest.flatMap (fun arg => [[','], arg])

/-- Translation of `compound_uri`: the operator, an opening bracket segment,
the comma-separated arguments and a closing bracket segment, all joined by
`join_uri`. -/
def compound_uri (op : List Char) (args : List (List Char)) : List Char :=
  join_uri (op :: ['['] :: (commaItems args ++ [[']']]))

/-- The chunk flush of `parse_compound_uri`: rejoin the accumulated segments,
strip surrounding slashes, prefix one slash. -/
def flushChunk (current : List (List Char)) : List Char :=
  '/' :: stripSlash (joinSlash current)

/-- One iteration of the scanning loop of `parse_compound_uri` over the
state (chunks so far, current accumulation, bracket depth).  A comma at
depth zero flushes the accumulation; any other segment is accumulated,
adjusting the depth at bracket segments.  The depth is an integer exactly
as in Python. -/
def scanStep (st : List (List Char) × List (List Char) × Int) (piece : List Char) :
    List (List Char) × List (List Char) × Int :=
  if piece = [','] ∧ st.2.2 = 0 then
    (st.1 ++ [flushChunk st.2.1], [], st.2.2)
  else
    (st.1, st.2.1 ++ [piece],
      if piece = ['['] then st.2.2 + 1
      else if piece = [']'] then st.2.2 - 1
      else st.2.2)

/-- The final flush of `parse_compound_uri`: when the accumulation left at
the end of the scanning loop is nonempty it becomes one more chunk. -/
def finishChunks (st : List (List Char) × List (List Char) × Int) : List (List Char) :=
  if st.2.1 ≠ [] then st.1 ++ [flushChunk st.2.1] else st.1

/-- Translation of `parse_compound_uri`.  The source strips leading slashes,
splits on slashes, validates the final segment and the presence of an
opening bracket, rebuilds the operator from the segments before the first
opening bracket, then scans the segments strictly between that bracket and
the final one, flushing a leftover accumulation at the end. -/
def parse_compound_uri (uri : List Char) :
    Except UriError (List Char × List (List Char)) :=
  let pieces := splitSlash (uri.dropWhile isSlash)
  if pieces.getLastD [] ≠ [']'] then
    Except.error UriError.mustEndWithBracket
  else if ['['] ∉ pieces then
    Except.error UriError.mustContainBracket
  else
    let list_start := pieces.indexOf ['[']
    let op := join_uri (pieces.take list_start)
    let middle := (pieces.drop (list_start + 1)).dropLast
    Except.ok (op, finishChunks (middle.foldl scanStep ([], [], 0)))

/-- Python runtime values flowing through the source builders: the module
only ever handles strings and lists of values, so this small dynamic type
suffices to translate the untyped calls faithfully. -/
inductive PyVal
  | str : List Char → PyVal
  | lst : List PyVal → PyVal

/-- Extract the underlying strings of a list of dynamic values, when all of
them are strings. -/
def allStrs : List PyVal → Option (List (List Char))
  | [] => some []
  | PyVal.str s :: vs => (allStrs vs).map (fun ss => s :: ss)
  | PyVal.lst _ :: _ => none

/-- Entry of `compound_uri` for dynamically typed arguments.  In Python every
argument flows into `join_uri`, which calls the string method `strip` on it,
so a non-string argument makes the call fail with a dynamic-typing error;
string arguments behave exactly as `compound_uri`. -/
def compound_uri_dyn (op : List Char) (args : List PyVal) : Except UriError (List Char) :=
  match allStrs args with
  | some ss => Except.ok (compound_uri op ss)
  | none => Except.error UriError.typeError

/-- Translation of `conjunction_uri` over the variadic `sources` tuple:
zero sources fail, one source is returned unchanged (whatever value it is),
two or more are wrapped in a `/and` compound. -/
def conjunction_uri (sources : List PyVal) : Except UriError PyVal :=
  match sources with
  | [] => Except.error UriError.emptyConjunction
  | [s] => Except.ok s
  | s1 :: s2 :: rest => (compound_uri_dyn (uriOf "/and") (s1 :: s2 :: rest)).map PyVal.str

/-- Translation of `disjunction_uri`, identical in shape to
`conjunction_uri` with the `/or` operator. -/
def disjunction_uri (sources : List PyVal) : Except UriError PyVal :=
  match sources with
  | [] => Except.error UriError.emptyDisjunction
  | [s] => Except.ok s
  | s1 :: s2 :: rest => (compound_uri_dyn (uriOf "/or") (s1 :: s2 :: rest)).map PyVal.str

/-- Translation of `assertion_uri`.  The body of the Python function is only
a docstring; a Python function that never executes a `return` statement
returns `None`, modelled as `none`. -/
def assertion_uri (rel : List Char) (args : List (List Char)) : Option (List Char) :=
  none

/-- Translation of `and_or_tree`.  Note that the source passes each
`sublist` to `conjunction_uri` as one positional argument (without tuple
unpacking), so the variadic `sources` tuple is the one-element list
containing the sublist; likewise `ands` is passed to `disjunction_uri` as
one argument. -/
def and_or_tree (list_of_lists : List PyVal) : Except UriError PyVal := do
  let ands ← list_of_lists.mapM (fun sublist => conjunction_uri [sublist])
  disjunction_uri [PyVal.lst ands]

/-- Bracket-balance scan over a segment list: starting from depth `d`, a
closing bracket or a comma segment is only allowed at positive depth, and
the result is the final depth (`none` on a violation).  An argument whose
stripped segments pass this scan from depth zero back to depth zero is one
whose commas are all nested inside brackets, so the parser accumulates the
argument verbatim. -/
def scanBal (d : Int) : List (List Char) → Option Int
  | [] => some d
  | s :: rest =>
    if s = ['['] then scanBal (d + 1) rest
    else if s = [']'] then (if 0 < d then scanBal (d - 1) rest else none)
    else if s = [','] then (if 0 < d then scanBal d rest else none)
    else scanBal d rest

/-- The segment list contributed to the scan region of the parser by a list
of arguments: the split segments of each stripped argument, with one
separator comma segment between consecutive arguments. -/
def argSegs (args : List (List Char)) : List (List Char) :=
  match args with
  | [] => []
  | a :: rest =>
    splitSlash (a.drop 1) ++ rest.flatMap (fun b => [','] :: splitSlash (b.drop 1))

/-- Well-formedness of an operator for the round-trip: a single leading
slash, nonempty content, no trailing slash, and no reserved segment
anywhere in the operator. -/
def opWellFormed (op : List Char) : Prop :=
  op.head? = some '/' ∧ op.drop 1 ≠ [] ∧ (op.drop 1).head? ≠ some '/' ∧
    (op.drop 1).getLast? ≠ some '/' ∧
    ∀ s ∈ splitSlash (op.drop 1), s ≠ ['['] ∧ s ≠ [']'] ∧ s ≠ [',']

/-- Well-formedness of an argument for the round-trip: a single leading
slash, no slash right after it, no trailing slash, and bracket-balanced
segments whose comma segments all occur inside brackets.  A plain URI
without reserved segments satisfies this, and so does a compound URI built
by `compound_uri` from well-formed parts. -/
def argWellFormed (a : List Char) : Prop :=
  a.head? = some '/' ∧ (a.drop 1).head? ≠ some '/' ∧ (a.drop 1).getLast? ≠ some '/' ∧
    scanBal 0 (splitSlash (a.drop 1)) = some 0

instance (op : List Char) : Decidable (opWellFormed op) := by
  unfold opWellFormed
  infer_instance

instance (a : List Char) : Decidable (argWellFormed a) := by
  unfold argWellFormed
  infer_instance

/-! ## Theorems -/

theorem dropWhile_eq_self_of_head? {p : Char → Bool} {l : List Char}
    (h : ∀ c, l.head? = some c → p c = false) : l.dropWhile p = l := by
  cases l with
  | nil => rfl
  | cons a t => simp [List.dropWhile_cons, h a rfl]

theorem head?_dropWhile_false {p : Char → Bool} {l : List Char} {c : Char}
    (h : (l.dropWhile p).head? = some c) : p c = false := by
  induction l with
  | nil => simp at h
  | cons a t ih =>
    by_cases hp : p a
    · exact ih (by simpa [List.dropWhile_cons, hp] using h)
    · simp only [List.dropWhile_cons, hp] at h
      simp only [Bool.false_eq_true, if_false, List.head?_cons, Option.some.injEq] at h
      simpa [← h] using hp

theorem pyStrip_head? {p : Char → Bool} {l : List Char} {c : Char}
    (h : (pyStrip p l).head? = some c) : p c = false := by
  unfold pyStrip at h
  have hsuf : ((l.dropWhile p).reverse.dropWhile p) <:+ (l.dropWhile p).reverse :=
    List.dropWhile_suffix p
  have hpre : ((l.dropWhile p).reverse.dropWhile p).reverse <+: l.dropWhile p := by
    have := List.reverse_prefix.mpr hsuf
    simpa using this
  obtain ⟨t, ht⟩ := hpre
  cases hx : ((l.dropWhile p).reverse.dropWhile p).reverse with
  | nil => rw [hx] at h; simp at h
  | cons x xs =>
    rw [hx] at h ht
    simp only [List.head?_cons, Option.some.injEq] at h
    subst h
    exact head?_dropWhile_false (l := l) (by rw [← ht]; rfl)

theorem pyStrip_getLast? {p : Char → Bool} {l : List Char} {c : Char}
    (h : (pyStrip p l).getLast? = some c) : p c = false := by
  unfold pyStrip at h
  rw [List.getLast?_reverse] at h
  exact head?_dropWhile_false h

theorem pyStrip_eq_self {p : Char → Bool} {l : List Char}
    (h1 : ∀ c, l.head? = some c → p c = false)
    (h2 : ∀ c, l.getLast? = some c → p c = false) : pyStrip p l = l := by
  unfold pyStrip
  rw [dropWhile_eq_self_of_head? h1]
  rw [dropWhile_eq_self_of_head? (by simpa [List.head?_reverse] using h2)]
  exact List.reverse_reverse l

theorem pyStrip_cons_of_pos {p : Char → Bool} {a : Char} {l : List Char}
    (h : p a = true) : pyStrip p (a :: l) = pyStrip p l := by
  unfold pyStrip
  rw [List.dropWhile_cons, if_pos h]

theorem pyStrip_eq_self_of_forall {p : Char → Bool} {l : List Char}
    (h : ∀ c ∈ l, p c = false) : pyStrip p l = l := by
  refine pyStrip_eq_self (fun c hc => h c ?_) (fun c hc => h c ?_)
  · cases l with
    | nil => simp at hc
    | cons a t => simp only [List.head?_cons, Option.some.injEq] at hc; simp [hc]
  · have hm : c ∈ l.reverse := by
      rw [← List.head?_reverse] at hc
      cases hr : l.reverse with
      | nil => rw [hr] at hc; simp at hc
      | cons a t => rw [hr] at hc; simp only [List.head?_cons, Option.some.injEq] at hc; simp [hc]
    exact List.mem_reverse.mp hm

theorem splitSlash_ne_nil (l : List Char) : splitSlash l ≠ [] := by
  cases l with
  | nil => simp [splitSlash]
  | cons c rest =>
    by_cases h : c = '/'
    · simp [splitSlash, h]
    · simp [splitSlash, h]

theorem splitSlash_cons_slash (l : List Char) : splitSlash ('/' :: l) = [] :: splitSlash l := by
  simp [splitSlash]

theorem splitSlash_cons_of_ne {c : Char} {l : List Char} {s : List Char} {ss : List (List Char)}
    (h : c ≠ '/') (hs : splitSlash l = s :: ss) : splitSlash (c :: l) = (c :: s) :: ss := by
  simp [splitSlash, h, hs]

theorem splitSlash_append_slash (xs ys : List Char) :
    splitSlash (xs ++ '/' :: ys) = splitSlash xs ++ splitSlash ys := by
  induction xs with
  | nil => simp [splitSlash]
  | cons c xs ih =>
    by_cases h : c = '/'
    · subst h
      rw [List.cons_append, splitSlash_cons_slash, splitSlash_cons_slash, ih, List.cons_append]
    · obtain ⟨s, ss, hs⟩ : ∃ s ss, splitSlash xs = s :: ss := by
        cases hx : splitSlash xs with
        | nil => exact absurd hx (splitSlash_ne_nil xs)
        | cons s ss => exact ⟨s, ss, rfl⟩
      have happ : splitSlash (xs ++ '/' :: ys) = s :: (ss ++ splitSlash ys) := by
        rw [ih, hs, List.cons_append]
      rw [List.cons_append, splitSlash_cons_of_ne h happ, splitSlash_cons_of_ne h hs,
        List.cons_append]

theorem splitSlash_of_not_mem {l : List Char} (h : '/' ∉ l) : splitSlash l = [l] := by
  induction l with
  | nil => rfl
  | cons c rest ih =>
    have hc : c ≠ '/' := fun e => h (e ▸ List.mem_cons_self c rest)
    have hr : splitSlash rest = [rest] := ih (fun e => h (List.mem_cons_of_mem c e))
    exact splitSlash_cons_of_ne hc hr

theorem not_slash_of_mem_splitSlash {l : List Char} {s : List Char}
    (h : s ∈ splitSlash l) : '/' ∉ s := by
  induction l generalizing s with
  | nil =>
    simp only [splitSlash, List.mem_singleton] at h
    simp [h]
  | cons c rest ih =>
    by_cases hc : c = '/'
    · subst hc
      rw [splitSlash_cons_slash] at h
      rcases List.mem_cons.mp h with h | h
      · simp [h]
      · exact ih h
    · obtain ⟨t, ts, hs⟩ : ∃ t ts, splitSlash rest = t :: ts := by
        cases hx : splitSlash rest with
        | nil => exact absurd hx (splitSlash_ne_nil rest)
        | cons t ts => exact ⟨t, ts, rfl⟩
      rw [splitSlash_cons_of_ne hc hs] at h
      rcases List.mem_cons.mp h with h | h
      · subst h
        intro hmem
        rcases List.mem_cons.mp hmem with h | h
        · exact hc h.symm
        · exact ih (hs ▸ List.mem_cons_self t ts) h
      · exact ih (hs ▸ List.mem_cons_of_mem t h)

theorem joinSlash_cons_of_ne_nil {s : List Char} {ss : List (List Char)} (h : ss ≠ []) :
    joinSlash (s :: ss) = s ++ '/' :: joinSlash ss := by
  cases ss with
  | nil => exact absurd rfl h
  | cons t rest => rfl

theorem joinSlash_splitSlash (l : List Char) : joinSlash (splitSlash l) = l := by
  induction l with
  | nil => rfl
  | cons c rest ih =>
    by_cases hc : c = '/'
    · subst hc
      rw [splitSlash_cons_slash, joinSlash_cons_of_ne_nil (splitSlash_ne_nil rest), ih]
      rfl
    · obtain ⟨t, ts, hs⟩ : ∃ t ts, splitSlash rest = t :: ts := by
        cases hx : splitSlash rest with
        | nil => exact absurd hx (splitSlash_ne_nil rest)
        | cons t ts => exact ⟨t, ts, rfl⟩
      rw [splitSlash_cons_of_ne hc hs]
      cases ts with
      | nil =>
        have : joinSlash [t] = rest := by rw [← hs, ih]
        simp only [joinSlash] at this ⊢
        rw [this]
      | cons u us =>
        have hJ : t ++ '/' :: joinSlash (u :: us) = rest := by
          rw [← joinSlash_cons_of_ne_nil (List.cons_ne_nil u us), ← hs, ih]
        rw [joinSlash_cons_of_ne_nil (List.cons_ne_nil u us), ← hJ]
        simp

theorem splitSlash_joinSlash_flat {L : List (List Char)} (h : L ≠ []) :
    splitSlash (joinSlash L) = L.flatMap splitSlash := by
  induction L with
  | nil => exact absurd rfl h
  | cons s rest ih =>
    cases rest with
    | nil => simp [joinSlash, List.flatMap_cons]
    | cons t ts =>
      rw [joinSlash_cons_of_ne_nil (List.cons_ne_nil t ts), splitSlash_append_slash,
        ih (List.cons_ne_nil t ts)]
      simp [List.flatMap_cons]

example : compound_uri (uriOf "/nothing") [] = uriOf "/nothing/[/]" := by decide

example :
    compound_uri (uriOf "/a") [uriOf "/r/CapableOf", uriOf "/c/en/cat", uriOf "/c/en/sleep"] =
      uriOf "/a/[/r/CapableOf/,/c/en/cat/,/c/en/sleep/]" := by decide

example : parse_compound_uri (uriOf "/nothing/[/]") = Except.ok (uriOf "/nothing", []) := by
  decide

example :
    parse_compound_uri (uriOf "/a/[/r/CapableOf/,/c/en/cat/,/c/en/sleep/]") =
      Except.ok (uriOf "/a", [uriOf "/r/CapableOf", uriOf "/c/en/cat", uriOf "/c/en/sleep"]) := by
  decide

example :
    parse_compound_uri (uriOf "/or/[/and/[/s/x/,/s/y/]/,/s/z/]") =
      Except.ok (uriOf "/or", [uriOf "/and/[/s/x/,/s/y/]", uriOf "/s/z"]) := by decide

example : join_uri [uriOf "/c", uriOf "en", uriOf "cat"] = uriOf "/c/en/cat" := by decide

example : join_uri [uriOf "c", uriOf "en", uriOf " spaces "] = uriOf "/c/en/ spaces " := by
  decide

example : normalize_text id (uriOf "Italian supercat") = uriOf "italian_supercat" := by decide

theorem eq_cons_head {a : List Char} (h : a.head? = some '/') : a = '/' :: a.drop 1 := by
  cases a with
  | nil => simp at h
  | cons c r =>
    simp only [List.head?_cons, Option.some.injEq] at h
    simp [h]

theorem stripSlash_eq_drop {a : List Char} (h0 : a.head? = some '/')
    (h1 : (a.drop 1).head? ≠ some '/') (h2 : (a.drop 1).getLast? ≠ some '/') :
    stripSlash a = a.drop 1 := by
  rw [eq_cons_head h0]
  have hdrop : ('/' :: a.drop 1).drop 1 = a.drop 1 := by simp
  rw [hdrop]
  unfold stripSlash
  rw [pyStrip_cons_of_pos (by rfl)]
  refine pyStrip_eq_self (fun c hc => ?_) (fun c hc => ?_)
  · have : c ≠ '/' := fun e => h1 (by rw [hc, e])
    simpa [isSlash] using this
  · have : c ≠ '/' := fun e => h2 (by rw [hc, e])
    simpa [isSlash] using this

theorem stripSlash_of_not_mem {l : List Char} (h : '/' ∉ l) : stripSlash l = l :=
  pyStrip_eq_self_of_forall (fun c hc => by
    have : c ≠ '/' := fun e => h (e ▸ hc)
    simpa [isSlash] using this)

theorem map_stripSlash_commaItems (args : List (List Char)) :
    (commaItems args).map stripSlash = commaItems (args.map stripSlash) := by
  cases args with
  | nil => rfl
  | cons a rest =>
    have hcomma : stripSlash [','] = [','] := rfl
    simp [commaItems, List.map_flatMap, List.flatMap_map, hcomma]

theorem flatMap_congr_mem {α β : Type} {l : List α} {f g : α → List β}
    (h : ∀ a ∈ l, f a = g a) : l.flatMap f = l.flatMap g := by
  induction l with
  | nil => rfl
  | cons a t ih =>
    rw [List.flatMap_cons, List.flatMap_cons, h a (List.mem_cons_self a t),
      ih (fun x hx => h x (List.mem_cons_of_mem a hx))]

theorem joinSlash_commaItems_close (r : List Char) (rs : List (List Char)) :
    joinSlash (commaItems (r :: rs) ++ [[']']]) =
      r ++ rs.flatMap (fun s => '/' :: ',' :: '/' :: s) ++ '/' :: [']'] := by
  induction rs generalizing r with
  | nil => simp [commaItems, joinSlash]
  | cons b bs ih =>
    have hshape : commaItems (r :: b :: bs) ++ [[']']] =
        r :: [','] :: (commaItems (b :: bs) ++ [[']']]) := by
      simp [commaItems, List.flatMap_cons]
    rw [hshape, joinSlash_cons_of_ne_nil (List.cons_ne_nil _ _),
      joinSlash_cons_of_ne_nil (by simp [commaItems]), ih b]
    simp [List.flatMap_cons]

theorem compound_uri_explicit (op : List Char) (args : List (List Char))
    (hop0 : op.head? = some '/') (hop : stripSlash op = op.drop 1)
    (hargs : ∀ a ∈ args, a.head? = some '/' ∧ stripSlash a = a.drop 1) :
    compound_uri op args =
      op ++ '/' :: '[' ::
        (match args with
         | [] => ([] : List Char)
         | a :: rest => a ++ rest.flatMap (fun b => '/' :: ',' :: b)) ++ '/' :: [']'] := by
  obtain ⟨q, hq⟩ : ∃ q, op = '/' :: q := ⟨op.drop 1, eq_cons_head hop0⟩
  subst hq
  have hopq : stripSlash ('/' :: q) = q := by simpa using hop
  unfold compound_uri join_uri
  have h1 : stripSlash ['['] = ['['] := rfl
  have h2 : stripSlash [']'] = [']'] := rfl
  have hmap : ((('/' :: q)) :: ['['] :: (commaItems args ++ [[']']])).map stripSlash =
      q :: ['['] :: (commaItems (args.map (fun a => a.drop 1)) ++ [[']']]) := by
    simp only [List.map_cons, List.map_append, List.map_nil, hopq, h1, h2]
    rw [map_stripSlash_commaItems, List.map_congr_left (fun a ha => (hargs a ha).2)]
  rw [hmap]
  cases args with
  | nil => simp [commaItems, joinSlash]
  | cons a rest =>
    obtain ⟨ra, hra⟩ : ∃ ra, a = '/' :: ra :=
      ⟨a.drop 1, eq_cons_head (hargs a (List.mem_cons_self a rest)).1⟩
    subst hra
    simp only [List.map_cons]
    rw [joinSlash_cons_of_ne_nil (List.cons_ne_nil _ _),
      joinSlash_cons_of_ne_nil (by simp [commaItems])]
    have hdrop : (('/' :: ra) : List Char).drop 1 = ra := by simp
    rw [hdrop, joinSlash_commaItems_close]
    have hflat : (rest.map (fun x => x.drop 1)).flatMap (fun s => '/' :: ',' :: '/' :: s) =
        rest.flatMap (fun b => '/' :: ',' :: b) := by
      rw [List.flatMap_map]
      refine flatMap_congr_mem (fun b hb => ?_)
      conv_rhs => rw [eq_cons_head (hargs b (List.mem_cons_of_mem _ hb)).1]
    rw [hflat]
    simp

theorem scanStep_flush {chunks cur : List (List Char)} :
    scanStep (chunks, cur, 0) [','] = (chunks ++ [flushChunk cur], [], 0) := by
  simp [scanStep]

theorem scanStep_acc {chunks cur : List (List Char)} {d : Int} {piece : List Char}
    (h : ¬(piece = [','] ∧ d = 0)) :
    scanStep (chunks, cur, d) piece =
      (chunks, cur ++ [piece],
        if piece = ['['] then d + 1 else if piece = [']'] then d - 1 else d) := by
  simp only [scanStep, if_neg h]

theorem foldl_scanStep_of_scanBal (segs : List (List Char)) :
    ∀ (d e : Int), scanBal d segs = some e →
    ∀ (chunks cur : List (List Char)),
      segs.foldl scanStep (chunks, cur, d) = (chunks, cur ++ segs, e) := by
  induction segs with
  | nil =>
    intro d e h chunks cur
    simp only [scanBal, Option.some.injEq] at h
    simp [h]
  | cons s rest ih =>
    intro d e h chunks cur
    rw [List.foldl_cons]
    by_cases h1 : s = ['[']
    · subst h1
      rw [scanBal, if_pos rfl] at h
      rw [scanStep_acc (by simp), if_pos rfl, ih (d + 1) e h]
      simp
    · by_cases h2 : s = [']']
      · subst h2
        rw [scanBal, if_neg (by decide), if_pos rfl] at h
        by_cases hd : (0 : Int) < d
        · rw [if_pos hd] at h
          rw [scanStep_acc (by simp), if_neg (by decide), if_pos rfl, ih (d - 1) e h]
          simp
        · rw [if_neg hd] at h
          exact absurd h (by simp)
      · by_cases h3 : s = [',']
        · subst h3
          rw [scanBal, if_neg (by decide), if_neg (by decide), if_pos rfl] at h
          by_cases hd : (0 : Int) < d
          · rw [if_pos hd] at h
            have hne : ¬(([','] : List Char) = [','] ∧ d = 0) := by
              rintro ⟨-, hd0⟩
              omega
            rw [scanStep_acc hne, if_neg (by decide), if_neg (by decide), ih d e h]
            simp
          · rw [if_neg hd] at h
            exact absurd h (by simp)
        · rw [scanBal, if_neg h1, if_neg h2, if_neg h3] at h
          rw [scanStep_acc (by rintro ⟨hs, -⟩; exact h3 hs), if_neg h1, if_neg h2, ih d e h]
          simp

theorem flatMap_splitSlash_commaItems (args : List (List Char)) :
    (commaItems (args.map (fun a => a.drop 1))).flatMap splitSlash = argSegs args := by
  cases args with
  | nil => rfl
  | cons a rest =>
    simp only [List.map_cons, commaItems, argSegs, List.flatMap_cons, List.flatMap_append]
    congr 1
    induction rest with
    | nil => rfl
    | cons b bs ihb =>
      have hcomma : splitSlash [','] = [[',']] := rfl
      simp only [List.map_cons, List.flatMap_cons, List.flatMap_append, hcomma,
        List.flatMap_nil, List.append_nil] at ihb ⊢
      rw [ihb]
      simp

theorem scan_argSegs (args : List (List Char)) :
    (∀ a ∈ args, scanBal 0 (splitSlash (a.drop 1)) = some 0) →
    ∀ chunks : List (List Char),
      finishChunks ((argSegs args).foldl scanStep (chunks, [], (0 : Int))) =
        chunks ++ args.map (fun a => '/' :: stripSlash (a.drop 1)) := by
  induction args with
  | nil =>
    intro hbal chunks
    simp [argSegs, finishChunks]
  | cons a rest ih =>
    intro hbal chunks
    cases rest with
    | nil =>
      simp only [argSegs, List.flatMap_nil, List.append_nil]
      rw [foldl_scanStep_of_scanBal _ 0 0 (hbal a (List.mem_cons_self a [])) chunks []]
      simp only [List.nil_append]
      rw [finishChunks]
      rw [if_pos (splitSlash_ne_nil _)]
      simp [flushChunk, joinSlash_splitSlash]
    | cons b bs =>
      have hsegs : argSegs (a :: b :: bs) =
          splitSlash (a.drop 1) ++ ([','] :: argSegs (b :: bs)) := by
        simp [argSegs, List.flatMap_cons, List.append_assoc]
      rw [hsegs, List.foldl_append,
        foldl_scanStep_of_scanBal _ 0 0 (hbal a (List.mem_cons_self a (b :: bs))) chunks [],
        List.nil_append, List.foldl_cons, scanStep_flush,
        ih (fun x hx => hbal x (List.mem_cons_of_mem a hx)) _]
      simp [flushChunk, joinSlash_splitSlash, List.append_assoc]

theorem indexOf_append_cons_self {A B : List (List Char)} {x : List Char} (h : x ∉ A) :
    (A ++ x :: B).indexOf x = A.length := by
  induction A with
  | nil => simp [List.indexOf_cons]
  | cons a as ih =>
    have hax : a ≠ x := fun e => h (e ▸ List.mem_cons_self a as)
    simp only [List.cons_append, List.indexOf_cons]
    rw [show (a == x) = false from beq_eq_false_iff_ne.mpr hax]
    simp [ih (fun hx => h (List.mem_cons_of_mem a hx))]

theorem getLastD_concat {A : List (List Char)} {x d : List Char} :
    (A ++ [x]).getLastD d = x := by
  rw [List.getLastD_eq_getLast?, List.getLast?_concat]
  rfl

theorem stripSlash_eq_self_of_ends {l : List Char}
    (h1 : l.head? ≠ some '/') (h2 : l.getLast? ≠ some '/') : stripSlash l = l := by
  refine pyStrip_eq_self (fun c hc => ?_) (fun c hc => ?_)
  · have hne : c ≠ '/' := fun e => h1 (by rw [hc, e])
    simpa [isSlash] using hne
  · have hne : c ≠ '/' := fun e => h2 (by rw [hc, e])
    simpa [isSlash] using hne

theorem map_eq_self_of_mem {α : Type} {l : List α} {f : α → α}
    (h : ∀ a ∈ l, f a = a) : l.map f = l := by
  induction l with
  | nil => rfl
  | cons a t ih =>
    rw [List.map_cons, h a (List.mem_cons_self a t),
      ih (fun x hx => h x (List.mem_cons_of_mem a hx))]

theorem compound_uri_join_form (op : List Char) (args : List (List Char))
    (hop : stripSlash op = op.drop 1)
    (hargs : ∀ a ∈ args, stripSlash a = a.drop 1) :
    compound_uri op args =
      '/' :: joinSlash (op.drop 1 :: ['['] ::
        (commaItems (args.map (fun a => a.drop 1)) ++ [[']']])) := by
  unfold compound_uri join_uri
  have h1 : stripSlash ['['] = ['['] := rfl
  have h2 : stripSlash [']'] = [']'] := rfl
  simp only [List.map_cons, List.map_append, List.map_nil, hop, h1, h2]
  rw [map_stripSlash_commaItems, List.map_congr_left hargs]

theorem parse_compound_roundtrip (op : List Char) (args : List (List Char))
    (hop : opWellFormed op) (hargs : ∀ a ∈ args, argWellFormed a) :
    parse_compound_uri (compound_uri op args) = Except.ok (op, args) := by
  obtain ⟨hop0, hopne, hoph, hopl, hopseg⟩ := hop
  have hopstrip : stripSlash op = op.drop 1 := stripSlash_eq_drop hop0 hoph hopl
  have hargstrip : ∀ a ∈ args, stripSlash a = a.drop 1 := fun a ha =>
    stripSlash_eq_drop (hargs a ha).1 (hargs a ha).2.1 (hargs a ha).2.2.1
  rw [compound_uri_join_form op args hopstrip hargstrip]
  set q := op.drop 1 with hqdef
  set B := (['['] :: (commaItems (args.map (fun a => a.drop 1)) ++ [[']']]) :
    List (List Char)) with hBdef
  have hBne : B ≠ [] := by rw [hBdef]; simp
  have hdropW : (('/' :: joinSlash (q :: B)).dropWhile isSlash) = joinSlash (q :: B) := by
    rw [List.dropWhile_cons, if_pos (by rfl)]
    apply dropWhile_eq_self_of_head?
    intro c hc
    rw [joinSlash_cons_of_ne_nil hBne] at hc
    have hqh : q.head? = some c := by
      cases hq2 : q with
      | nil => exact absurd hq2 hopne
      | cons qh qt =>
        rw [hq2] at hc
        simp only [List.cons_append, List.head?_cons, Option.some.injEq] at hc
        simp [hc]
    have hcne : c ≠ '/' := fun e => hoph (e ▸ hqh)
    simpa [isSlash] using hcne
  have hsplit : splitSlash (joinSlash (q :: B)) =
      splitSlash q ++ ['['] :: (argSegs args ++ [[']']]) := by
    rw [splitSlash_joinSlash_flat (List.cons_ne_nil _ _), List.flatMap_cons, hBdef,
      List.flatMap_cons, List.flatMap_append]
    have hbr : splitSlash ['['] = [['[']] := rfl
    have hbr2 : ([[']']] : List (List Char)).flatMap splitSlash = [[']']] := rfl
    rw [hbr, hbr2, flatMap_splitSlash_commaItems]
    simp
  have hlast : (splitSlash q ++ ['['] :: (argSegs args ++ [[']']])).getLastD [] = [']'] := by
    rw [show splitSlash q ++ ['['] :: (argSegs args ++ [[']']]) =
        (splitSlash q ++ ['['] :: argSegs args) ++ [[']']] by simp]
    exact getLastD_concat
  have hmem : ['['] ∈ splitSlash q ++ ['['] :: (argSegs args ++ [[']']]) := by simp
  have hnotmem : ['['] ∉ splitSlash q := fun hm => (hopseg _ hm).1 rfl
  have hidx : (splitSlash q ++ ['['] :: (argSegs args ++ [[']']])).indexOf ['['] =
      (splitSlash q).length := indexOf_append_cons_self hnotmem
  have htake : (splitSlash q ++ ['['] :: (argSegs args ++ [[']']])).take
      (splitSlash q).length = splitSlash q :=
    List.take_left (splitSlash q) (['['] :: (argSegs args ++ [[']']]))
  have hopjoin : join_uri (splitSlash q) = op := by
    unfold join_uri
    rw [map_eq_self_of_mem
      (fun s hs => stripSlash_of_not_mem (not_slash_of_mem_splitSlash hs)),
      joinSlash_splitSlash]
    rw [hqdef]
    exact (eq_cons_head hop0).symm
  have hmid : ((splitSlash q ++ ['['] :: (argSegs args ++ [[']']])).drop
      ((splitSlash q).length + 1)).dropLast = argSegs args := by
    rw [← List.drop_drop, List.drop_left]
    simp only [List.drop_one, List.tail_cons]
    exact List.dropLast_concat
  have hbal : ∀ a ∈ args, scanBal 0 (splitSlash (a.drop 1)) = some 0 :=
    fun a ha => (hargs a ha).2.2.2
  have hargsid : args.map (fun a => '/' :: stripSlash (a.drop 1)) = args := by
    apply map_eq_self_of_mem
    intro a ha
    rw [stripSlash_eq_self_of_ends (hargs a ha).2.1 (hargs a ha).2.2.1]
    exact (eq_cons_head (hargs a ha).1).symm
  simp only [parse_compound_uri, hdropW, hsplit]
  rw [if_neg (fun hne => hne hlast), if_neg (fun hnot => hnot hmem)]
  rw [hidx, htake, hopjoin, hmid, scan_argSegs args hbal [], List.nil_append, hargsid]

theorem stripSlash_head?_ne (x : List Char) : (stripSlash x).head? ≠ some '/' :=
  fun h => by simpa [isSlash] using pyStrip_head? h

theorem stripSlash_getLast?_ne (x : List Char) : (stripSlash x).getLast? ≠ some '/' :=
  fun h => by simpa [isSlash] using pyStrip_getLast? h

theorem head?_append_left {α : Type} {l l' : List α} (h : l ≠ []) :
    (l ++ l').head? = l.head? := by
  cases l with
  | nil => exact absurd rfl h
  | cons a t => rfl

theorem getLast?_ne_none {α : Type} {s : List α} (h : s ≠ []) : s.getLast? ≠ none := by
  cases s with
  | nil => exact absurd rfl h
  | cons b t =>
    rw [← List.head?_reverse]
    cases hr : (b :: t).reverse with
    | nil =>
      have hlen := congrArg List.length hr
      simp at hlen
    | cons u us => simp [hr]

theorem getLast?_cons_of_ne_nil {α : Type} (a : α) {s : List α} (h : s ≠ []) :
    (a :: s).getLast? = s.getLast? := by
  rw [show a :: s = [a] ++ s from rfl, List.getLast?_append]
  cases hx : s.getLast? with
  | none => exact absurd hx (getLast?_ne_none h)
  | some y => rfl

theorem getLast?_map {α β : Type} (f : α → β) (l : List α) :
    (l.map f).getLast? = l.getLast?.map f := by
  rw [← List.head?_reverse, ← List.head?_reverse, ← List.map_reverse, List.head?_map]

theorem getLast?_cons_joinSlash (L : List (List Char)) (s : List Char) :
    L.getLast? = some s → s ≠ [] →
    ('/' :: joinSlash L).getLast? = s.getLast? := by
  induction L with
  | nil => intro h hs; simp at h
  | cons a ts ih =>
    intro hlast hs
    cases ts with
    | nil =>
      have ha : a = s := by simpa using hlast
      rw [ha]
      rw [show ('/' :: joinSlash [s]) = ['/'] ++ s from rfl, List.getLast?_append]
      cases hx : s.getLast? with
      | none => exact absurd hx (getLast?_ne_none hs)
      | some y => rfl
    | cons b bs =>
      have hlast2 : (b :: bs).getLast? = some s := by
        rw [← hlast]
        exact (getLast?_cons_of_ne_nil a (List.cons_ne_nil b bs)).symm
      rw [joinSlash_cons_of_ne_nil (List.cons_ne_nil b bs),
        show ('/' :: (a ++ '/' :: joinSlash (b :: bs))) =
          ('/' :: a) ++ ('/' :: joinSlash (b :: bs)) from by simp,
        List.getLast?_append, ih hlast2 hs]
      cases hx : s.getLast? with
      | none => exact absurd hx (getLast?_ne_none hs)
      | some y => rfl

theorem foldl_scanStep_chunks_shape (M : List (List Char)) :
    ∀ st : List (List Char) × List (List Char) × Int,
      (∀ c ∈ st.1, ∃ x, c = '/' :: stripSlash x) →
      ∀ c ∈ (M.foldl scanStep st).1, ∃ x, c = '/' :: stripSlash x := by
  induction M with
  | nil => exact fun st h c hc => h c hc
  | cons s rest ih =>
    intro st h c hc
    rw [List.foldl_cons] at hc
    refine ih _ ?_ c hc
    intro d hd
    by_cases hcond : s = [','] ∧ st.2.2 = 0
    · simp only [scanStep, if_pos hcond] at hd
      rcases List.mem_append.mp hd with hd | hd
      · exact h d hd
      · simp only [List.mem_singleton] at hd
        exact ⟨joinSlash st.2.1, by rw [hd]; rfl⟩
    · simp only [scanStep, if_neg hcond] at hd
      exact h d hd

theorem parse_chunks_shape (uri : List Char) (op : List Char) (args : List (List Char))
    (h : parse_compound_uri uri = Except.ok (op, args)) :
    ∀ a ∈ args, ∃ x, a = '/' :: stripSlash x := by
  simp only [parse_compound_uri] at h
  by_cases h1 : (splitSlash (uri.dropWhile isSlash)).getLastD [] ≠ [']']
  · rw [if_pos h1] at h
    exact absurd h (by simp)
  · rw [if_neg h1] at h
    by_cases h2 : ['['] ∉ splitSlash (uri.dropWhile isSlash)
    · rw [if_pos h2] at h
      exact absurd h (by simp)
    · rw [if_neg h2] at h
      simp only [Except.ok.injEq, Prod.mk.injEq] at h
      obtain ⟨-, hargs⟩ := h
      intro a ha
      rw [← hargs] at ha
      unfold finishChunks at ha
      by_cases hc : (((splitSlash (uri.dropWhile isSlash)).drop
          ((splitSlash (uri.dropWhile isSlash)).indexOf ['['] + 1)).dropLast.foldl
            scanStep ([], [], 0)).2.1 ≠ []
      · rw [if_pos hc] at ha
        rcases List.mem_append.mp ha with ha | ha
        · exact foldl_scanStep_chunks_shape _ ([], [], 0) (by simp) a ha
        · simp only [List.mem_singleton] at ha
          exact ⟨_, by rw [ha]; rfl⟩
      · rw [if_neg hc] at ha
        exact foldl_scanStep_chunks_shape _ ([], [], 0) (by simp) a ha

theorem mem_of_head? {α : Type} {l : List α} {a : α} (h : l.head? = some a) : a ∈ l := by
  cases l with
  | nil => simp at h
  | cons b t =>
    simp only [List.head?_cons, Option.some.injEq] at h
    simp [h]

theorem mem_of_getLast? {α : Type} {l : List α} {a : α} (h : l.getLast? = some a) : a ∈ l := by
  have hm : a ∈ l.reverse := by
    rw [← List.head?_reverse] at h
    exact mem_of_head? h
  exact List.mem_reverse.mp hm

theorem lookup_mem {β : Type} {n : Nat} {b : β} :
    ∀ {l : List (Nat × β)}, l.lookup n = some b → (n, b) ∈ l := by
  intro l
  induction l with
  | nil => intro h; simp [List.lookup] at h
  | cons p t ih =>
    intro h
    obtain ⟨k, v⟩ := p
    simp only [List.lookup] at h
    split at h
    · next heq =>
      simp only [Option.some.injEq] at h
      have hk : n = k := eq_of_beq heq
      rw [hk, h]
      exact List.mem_cons_self _ _
    · next => exact List.mem_cons_of_mem _ (ih h)

theorem lowerTable_mem {n : Nat} {ns : List Nat} (h : lowerLookup n = some ns) :
    ∃ k bucket, (k, bucket) ∈ lowerBuckets ∧ (n, ns) ∈ bucket := by
  unfold lowerLookup at h
  cases hb : lowerBuckets.lookup (n / 64) with
  | none => rw [hb] at h; simp at h
  | some bucket =>
    rw [hb] at h
    exact ⟨n / 64, bucket, lookup_mem hb, lookup_mem h⟩

theorem lowerTable_outputs_fixed :
    lowerBuckets.all (fun q => q.2.all (fun p => p.2.all
      (fun m => pyLowerChar (Char.ofNat m) == [Char.ofNat m]))) = true := by
  decide

theorem lowerTable_outputs_not_space :
    lowerBuckets.all (fun q => q.2.all (fun p => p.2.all
      (fun m => !(pyIsSpace (Char.ofNat m))))) = true := by
  decide

theorem lowerTable_values_ne_nil :
    lowerBuckets.all (fun q => q.2.all (fun p => !(p.2.isEmpty))) = true := by
  decide

theorem pyLowerChar_eq_of_lookup_some {c : Char} {ns : List Nat}
    (h : lowerLookup c.toNat = some ns) : pyLowerChar c = ns.map Char.ofNat := by
  unfold pyLowerChar
  rw [h]

theorem pyLowerChar_eq_of_lookup_none {c : Char}
    (h : lowerLookup c.toNat = none) : pyLowerChar c = [c] := by
  unfold pyLowerChar
  rw [h]

theorem pyLowerChar_fixed_of_mem {c e : Char} (he : e ∈ pyLowerChar c) :
    pyLowerChar e = [e] := by
  cases h : lowerLookup c.toNat with
  | none =>
    rw [pyLowerChar_eq_of_lookup_none h] at he
    simp only [List.mem_singleton] at he
    subst he
    exact pyLowerChar_eq_of_lookup_none h
  | some ns =>
    rw [pyLowerChar_eq_of_lookup_some h] at he
    rw [List.mem_map] at he
    obtain ⟨m, hm, rfl⟩ := he
    obtain ⟨k, bucket, hkb, hnb⟩ := lowerTable_mem h
    have h1 := List.all_eq_true.mp lowerTable_outputs_fixed _ hkb
    have h2 := List.all_eq_true.mp h1 _ hnb
    have h3 := List.all_eq_true.mp h2 _ hm
    exact eq_of_beq h3

theorem pyLowerChar_ne_nil (c : Char) : pyLowerChar c ≠ [] := by
  cases h : lowerLookup c.toNat with
  | none =>
    rw [pyLowerChar_eq_of_lookup_none h]
    simp
  | some ns =>
    rw [pyLowerChar_eq_of_lookup_some h]
    obtain ⟨k, bucket, hkb, hnb⟩ := lowerTable_mem h
    have h1 := List.all_eq_true.mp lowerTable_values_ne_nil _ hkb
    have h2 := List.all_eq_true.mp h1 _ hnb
    intro hnil
    have hns : ns = [] := by
      cases hx : ns with
      | nil => rfl
      | cons u us => rw [hx] at hnil; simp at hnil
    rw [hns] at h2
    simp at h2

theorem pyLowerChar_not_space {c : Char} (hc : pyIsSpace c = false) :
    ∀ e ∈ pyLowerChar c, pyIsSpace e = false := by
  intro e he
  cases h : lowerLookup c.toNat with
  | none =>
    rw [pyLowerChar_eq_of_lookup_none h] at he
    simp only [List.mem_singleton] at he
    rw [he]
    exact hc
  | some ns =>
    rw [pyLowerChar_eq_of_lookup_some h] at he
    rw [List.mem_map] at he
    obtain ⟨m, hm, rfl⟩ := he
    obtain ⟨k, bucket, hkb, hnb⟩ := lowerTable_mem h
    have h1 := List.all_eq_true.mp lowerTable_outputs_not_space _ hkb
    have h2 := List.all_eq_true.mp h1 _ hnb
    have h3 := List.all_eq_true.mp h2 _ hm
    simpa using h3

theorem pyReplaceSpace_ne_space (c : Char) : pyReplaceSpace c ≠ ' ' := by
  unfold pyReplaceSpace
  by_cases h : c = ' ' <;> simp [h]

theorem pyReplaceSpace_space (c : Char) (h : pyIsSpace c = false) :
    pyIsSpace (pyReplaceSpace c) = false := by
  unfold pyReplaceSpace
  by_cases hc : c = ' '
  · rw [if_pos hc]
    decide
  · rw [if_neg hc]
    exact h

theorem pyReplaceSpace_idem (z : Char) :
    pyReplaceSpace (pyReplaceSpace z) = pyReplaceSpace z := by
  unfold pyReplaceSpace
  by_cases h : z = ' '
  · simp [h]
  · simp [h]

theorem head?_flatMap {f : Char → List Char} {l : List Char} {d : Char}
    (hh : l.head? = some d) (hf : f d ≠ []) :
    (l.flatMap f).head? = (f d).head? := by
  cases l with
  | nil => simp at hh
  | cons a t =>
    simp only [List.head?_cons, Option.some.injEq] at hh
    subst hh
    rw [List.flatMap_cons, head?_append_left hf]

theorem reverse_flatMap_eq {f : Char → List Char} (l : List Char) :
    (l.flatMap f).reverse = l.reverse.flatMap (fun x => (f x).reverse) := by
  induction l with
  | nil => rfl
  | cons a t ih =>
    rw [List.flatMap_cons, List.reverse_append, ih]
    simp [List.flatMap_append]

theorem getLast?_flatMap {f : Char → List Char} {l : List Char} {d : Char}
    (hh : l.getLast? = some d) (hf : f d ≠ []) :
    (l.flatMap f).getLast? = (f d).getLast? := by
  rw [← List.head?_reverse, reverse_flatMap_eq]
  rw [← List.head?_reverse] at hh
  have hmain := head?_flatMap (f := fun x => (f x).reverse) hh (by simpa using hf)
  rw [hmain, List.head?_reverse]

theorem flatMap_singleton_eq_map {f : Char → Char} (l : List Char) :
    l.flatMap (fun e => [f e]) = l.map f := by
  induction l with
  | nil => rfl
  | cons a t ih => simp [List.flatMap_cons, ih]

theorem normalize_text_head_not_space (f : List Char → List Char) (x : List Char) :
    ∀ c, (normalize_text f x).head? = some c → pyIsSpace c = false := by
  intro c hc
  unfold normalize_text at hc
  rw [List.head?_map] at hc
  cases hs : (pyStrip pyIsSpace (f x)).head? with
  | none =>
    have hnil : pyStrip pyIsSpace (f x) = [] := by
      cases hx : pyStrip pyIsSpace (f x) with
      | nil => rfl
      | cons a t => rw [hx] at hs; simp at hs
    rw [show pyLower (pyStrip pyIsSpace (f x)) = [] from by rw [pyLower, hnil]; rfl] at hc
    simp at hc
  | some d =>
    rw [show (pyLower (pyStrip pyIsSpace (f x))).head? = (pyLowerChar d).head? from
      head?_flatMap hs (pyLowerChar_ne_nil d)] at hc
    cases he : (pyLowerChar d).head? with
    | none => rw [he] at hc; simp at hc
    | some e =>
      rw [he] at hc
      simp only [Option.map_some', Option.some.injEq] at hc
      rw [← hc]
      exact pyReplaceSpace_space _
        (pyLowerChar_not_space (pyStrip_head? hs) e (mem_of_head? he))

theorem normalize_text_getLast_not_space (f : List Char → List Char) (x : List Char) :
    ∀ c, (normalize_text f x).getLast? = some c → pyIsSpace c = false := by
  intro c hc
  unfold normalize_text at hc
  rw [getLast?_map] at hc
  cases hs : (pyStrip pyIsSpace (f x)).getLast? with
  | none =>
    have hnil : pyStrip pyIsSpace (f x) = [] := by
      cases hx : pyStrip pyIsSpace (f x) with
      | nil => rfl
      | cons a t => rw [hx] at hs; exact absurd hs (getLast?_ne_none (by simp))
    rw [show pyLower (pyStrip pyIsSpace (f x)) = [] from by rw [pyLower, hnil]; rfl] at hc
    simp at hc
  | some d =>
    rw [show (pyLower (pyStrip pyIsSpace (f x))).getLast? = (pyLowerChar d).getLast? from
      getLast?_flatMap hs (pyLowerChar_ne_nil d)] at hc
    cases he : (pyLowerChar d).getLast? with
    | none => rw [he] at hc; simp at hc
    | some e =>
      rw [he] at hc
      simp only [Option.map_some', Option.some.injEq] at hc
      rw [← hc]
      exact pyReplaceSpace_space _
        (pyLowerChar_not_space (pyStrip_getLast? hs) e (mem_of_getLast? he))

theorem normalize_text_no_space (f : List Char → List Char) (x : List Char) :
    ' ' ∉ normalize_text f x := by
  unfold normalize_text
  intro hmem
  rw [List.mem_map] at hmem
  obtain ⟨d, -, hd⟩ := hmem
  exact pyReplaceSpace_ne_space d hd

theorem pyStrip_normalize (f : List Char → List Char) (x : List Char) :
    pyStrip pyIsSpace (normalize_text f x) = normalize_text f x :=
  pyStrip_eq_self (normalize_text_head_not_space f x) (normalize_text_getLast_not_space f x)

theorem pyLower_image {e : Char} {l : List Char} (he : e ∈ pyLower l) :
    pyLowerChar e = [e] := by
  unfold pyLower at he
  rw [List.mem_flatMap] at he
  obtain ⟨c, -, hc⟩ := he
  exact pyLowerChar_fixed_of_mem hc

theorem normalize_text_idem (f : List Char → List Char) (x : List Char)
    (h : f (normalize_text f x) = normalize_text f x) :
    normalize_text f (normalize_text f x) = normalize_text f x := by
  conv_lhs => rw [normalize_text, h, pyStrip_normalize]
  have hlow : pyLower (normalize_text f x) = normalize_text f x := by
    rw [show normalize_text f x =
        (pyLower (pyStrip pyIsSpace (f x))).map pyReplaceSpace from rfl]
    unfold pyLower
    rw [List.flatMap_map]
    refine Eq.trans (flatMap_congr_mem (fun e hePw => ?_)) (flatMap_singleton_eq_map _)
    by_cases hsp : e = ' '
    · rw [hsp]
      decide
    · rw [show pyReplaceSpace e = e from by unfold pyReplaceSpace; simp [hsp]]
      exact pyLower_image hePw
  rw [hlow]
  rw [show normalize_text f x =
      (pyLower (pyStrip pyIsSpace (f x))).map pyReplaceSpace from rfl]
  rw [List.map_map]
  exact List.map_congr_left (fun z hz => by
    simp only [Function.comp_apply]
    exact pyReplaceSpace_idem z)

theorem join_uri_second_char (p : List Char) (ps : List (List Char))
    (h : stripSlash p ≠ []) :
    ((join_uri (p :: ps)).drop 1).head? ≠ some '/' := by
  unfold join_uri
  simp only [List.map_cons, List.drop_one, List.tail_cons]
  cases ps with
  | nil => exact stripSlash_head?_ne p
  | cons t ts =>
    simp only [List.map_cons]
    rw [joinSlash_cons_of_ne_nil (List.cons_ne_nil _ _), head?_append_left h]
    exact stripSlash_head?_ne p

theorem join_uri_last_slash (pieces : List (List Char)) (p : List Char)
    (hl : pieces.getLast? = some p)
    (hj : (join_uri pieces).getLast? = some '/') : stripSlash p = [] := by
  by_contra hne
  have hmap : (pieces.map stripSlash).getLast? = some (stripSlash p) := by
    rw [getLast?_map, hl]
    rfl
  have hlast := getLast?_cons_joinSlash (pieces.map stripSlash) (stripSlash p) hmap hne
  rw [show join_uri pieces = '/' :: joinSlash (pieces.map stripSlash) from rfl, hlast] at hj
  exact stripSlash_getLast?_ne p hj

theorem allStrs_map_str (ss : List (List Char)) : allStrs (ss.map PyVal.str) = some ss := by
  induction ss with
  | nil => rfl
  | cons s t ih => simp [allStrs, ih]

/-- C1 (amended): the round-trip `parse_compound_uri (compound_uri op args)`
returns `(op, args)` for every operator that contains no reserved segments
and is moreover itself a well-formed URI (one leading slash, nonempty
content, no trailing slash), and every list of arguments each of which
begins with a single slash, does not end with a slash, and has
bracket-balanced segments whose commas occur only inside brackets (true of
plain URIs without reserved segments and of compound URIs built by
`compound_uri`); in particular a compound URI used as an argument is
returned intact as a single argument string.  The original claim quantified
over arbitrary operator strings without reserved segments and is refuted by
`c1_roundtrip_counterexample`. -/
theorem c1_roundtrip (op : List Char) (args : List (List Char))
    (hop : opWellFormed op) (hargs : ∀ a ∈ args, argWellFormed a) :
    parse_compound_uri (compound_uri op args) = Except.ok (op, args) :=
  parse_compound_roundtrip op args hop hargs

/-- C1 counterexample: the operator string consisting of the single letter
x contains no reserved segments, yet parsing its compound URI returns the
operator with a leading slash attached, so the round-trip as originally
claimed fails. -/
theorem c1_roundtrip_counterexample :
    parse_compound_uri (compound_uri ['x'] []) = Except.ok (['/', 'x'], []) ∧
    parse_compound_uri (compound_uri ['x'] []) ≠ Except.ok (['x'], []) := by
  decide

/-- C1 witness: a concrete round-trip whose first argument is itself a
compound URI, returned intact as one argument. -/
theorem c1_roundtrip_witness :
    parse_compound_uri
        (compound_uri (uriOf "/or") [uriOf "/and/[/s/x/,/s/y/]", uriOf "/s/z"]) =
      Except.ok (uriOf "/or", [uriOf "/and/[/s/x/,/s/y/]", uriOf "/s/z"]) :=
  c1_roundtrip (uriOf "/or") [uriOf "/and/[/s/x/,/s/y/]", uriOf "/s/z"]
    (by decide) (by decide)

/-- C2: `assertion_uri` is documented (docstring and spec) to return the
compound URI of `/a` over the relation and arguments, but its body is
empty, so it returns `None`; at the docstring input the intended compound
URI differs from the actual result. -/
theorem c2_assertion_uri_incomplete :
    assertion_uri (uriOf "/r/CapableOf") [uriOf "/c/en/cat", uriOf "/c/en/sleep"] = none ∧
    compound_uri (uriOf "/a")
        (uriOf "/r/CapableOf" :: [uriOf "/c/en/cat", uriOf "/c/en/sleep"]) =
      uriOf "/a/[/r/CapableOf/,/c/en/cat/,/c/en/sleep/]" ∧
    assertion_uri (uriOf "/r/CapableOf") [uriOf "/c/en/cat", uriOf "/c/en/sleep"] ≠
      some (uriOf "/a/[/r/CapableOf/,/c/en/cat/,/c/en/sleep/]") := by
  exact ⟨rfl, by decide, by decide⟩

/-- C3: `and_or_tree` is claimed to return the string URI obtained by
mapping `conjunction_uri` over the inner lists and wrapping with
`disjunction_uri`; in fact every sublist is passed to `conjunction_uri` as
one positional argument, so the one-source branch returns each sublist
unchanged and `and_or_tree` returns the input list of lists itself, a list
value and not a string.  The middle conjuncts show the URI the intended
composition produces at the failing input, and the last that the actual
result differs from it. -/
theorem c3_and_or_tree_bug :
    and_or_tree
        [PyVal.lst [PyVal.str (uriOf "/s/one")],
         PyVal.lst [PyVal.str (uriOf "/s/two"), PyVal.str (uriOf "/s/three")]] =
      Except.ok (PyVal.lst
        [PyVal.lst [PyVal.str (uriOf "/s/one")],
         PyVal.lst [PyVal.str (uriOf "/s/two"), PyVal.str (uriOf "/s/three")]]) ∧
    conjunction_uri [PyVal.str (uriOf "/s/two"), PyVal.str (uriOf "/s/three")] =
      Except.ok (PyVal.str (uriOf "/and/[/s/two/,/s/three/]")) ∧
    disjunction_uri [PyVal.str (uriOf "/s/one"),
        PyVal.str (uriOf "/and/[/s/two/,/s/three/]")] =
      Except.ok (PyVal.str (uriOf "/or/[/s/one/,/and/[/s/two/,/s/three/]/]")) ∧
    and_or_tree
        [PyVal.lst [PyVal.str (uriOf "/s/one")],
         PyVal.lst [PyVal.str (uriOf "/s/two"), PyVal.str (uriOf "/s/three")]] ≠
      Except.ok (PyVal.str (uriOf "/or/[/s/one/,/and/[/s/two/,/s/three/]/]")) := by
  refine ⟨rfl, rfl, rfl, ?_⟩
  intro h
  rw [show and_or_tree
      [PyVal.lst [PyVal.str (uriOf "/s/one")],
       PyVal.lst [PyVal.str (uriOf "/s/two"), PyVal.str (uriOf "/s/three")]] =
    Except.ok (PyVal.lst
      [PyVal.lst [PyVal.str (uriOf "/s/one")],
       PyVal.lst [PyVal.str (uriOf "/s/two"), PyVal.str (uriOf "/s/three")]]) from rfl] at h
  exact PyVal.noConfusion (Except.ok.inj h)

/-- C4 (amended): `join_uri` of the empty sequence is the single slash; the
result always begins with a slash, and begins with exactly one slash
whenever the first piece does not strip to the empty string; the result
ends with a slash only if the final piece strips to the empty string.  The
original claim that the result always starts with exactly one slash is
refuted by `c4_join_uri_counterexample`. -/
theorem c4_join_uri (pieces : List (List Char)) :
    (pieces = [] → join_uri pieces = ['/']) ∧
    (join_uri pieces).head? = some '/' ∧
    (∀ p ps, pieces = p :: ps → stripSlash p ≠ [] →
      ((join_uri pieces).drop 1).head? ≠ some '/') ∧
    (∀ p, pieces.getLast? = some p → (join_uri pieces).getLast? = some '/' →
      stripSlash p = []) := by
  refine ⟨fun h => by rw [h]; rfl, rfl, ?_, ?_⟩
  · intro p ps hpp h
    rw [hpp]
    exact join_uri_second_char p ps h
  · exact join_uri_last_slash pieces

/-- C4 counterexample: when the first piece strips to the empty string the
result starts with two slashes, refuting the claim that `join_uri` always
starts with exactly one slash. -/
theorem c4_join_uri_counterexample :
    join_uri [[], ['x']] = ['/', '/', 'x'] ∧
    ((join_uri [[], ['x']]).drop 1).head? = some '/' := by
  decide

/-- C4 witness: a join whose first piece strips to nonempty content starts
with exactly one slash, and a join ending in a slash has a final piece
stripping to the empty string. -/
theorem c4_join_uri_witness :
    ((join_uri [uriOf "c", uriOf "en"]).drop 1).head? ≠ some '/' ∧
    stripSlash (uriOf "/") = [] :=
  ⟨(c4_join_uri [uriOf "c", uriOf "en"]).2.2.1 (uriOf "c") [uriOf "en"] rfl (by decide),
   (c4_join_uri [uriOf "a", uriOf "/"]).2.2.2 (uriOf "/") (by decide) (by decide)⟩

/-- C5: serialization shape of `compound_uri` for an operator that is a URI
without a trailing slash and well-formed argument URIs: zero arguments
yield the operator followed by an empty bracketed list, one argument is
emitted with no comma segment, and with more arguments a comma segment
precedes every argument except the first, the whole sequence joined by
`join_uri`. -/
theorem c5_compound_uri_shape (op : List Char) (args : List (List Char))
    (hop0 : op.head? = some '/') (hop1 : (op.drop 1).head? ≠ some '/')
    (hop2 : (op.drop 1).getLast? ≠ some '/')
    (hargs : ∀ a ∈ args, a.head? = some '/' ∧ (a.drop 1).head? ≠ some '/' ∧
      (a.drop 1).getLast? ≠ some '/') :
    compound_uri op [] = op ++ uriOf "/[/]" ∧
    (∀ a, a.head? = some '/' → (a.drop 1).head? ≠ some '/' →
      (a.drop 1).getLast? ≠ some '/' →
      compound_uri op [a] = op ++ uriOf "/[" ++ a ++ uriOf "/]") ∧
    compound_uri op args =
      op ++ uriOf "/[" ++
        (match args with
         | [] => ([] : List Char)
         | a :: rest => a ++ rest.flatMap (fun b => uriOf "/," ++ b)) ++ uriOf "/]" := by
  have hopstrip : stripSlash op = op.drop 1 := stripSlash_eq_drop hop0 hop1 hop2
  have e1 : uriOf "/[/]" = ['/', '[', '/', ']'] := rfl
  have e2 : uriOf "/[" = ['/', '['] := rfl
  have e3 : uriOf "/]" = ['/', ']'] := rfl
  have e4 : (fun b => uriOf "/," ++ b) = (fun b : List Char => '/' :: ',' :: b) := rfl
  refine ⟨?_, ?_, ?_⟩
  · rw [compound_uri_explicit op [] hop0 hopstrip (by simp), e1]
    simp
  · intro a h1 h2 h3
    rw [compound_uri_explicit op [a] hop0 hopstrip
      (by intro b hb
          simp only [List.mem_singleton] at hb
          subst hb
          exact ⟨h1, stripSlash_eq_drop h1 h2 h3⟩), e2, e3]
    simp
  · rw [compound_uri_explicit op args hop0 hopstrip
      (fun a ha => ⟨(hargs a ha).1,
        stripSlash_eq_drop (hargs a ha).1 (hargs a ha).2.1 (hargs a ha).2.2⟩), e2, e3, e4]
    cases args with
    | nil => simp
    | cons a rest => simp

/-- C5 witness: the documented three-argument assertion example has exactly
the claimed serialized form. -/
theorem c5_compound_uri_shape_witness :
    compound_uri (uriOf "/a")
        [uriOf "/r/CapableOf", uriOf "/c/en/cat", uriOf "/c/en/sleep"] =
      uriOf "/a/[/r/CapableOf/,/c/en/cat/,/c/en/sleep/]" := by
  have h := (c5_compound_uri_shape (uriOf "/a")
    [uriOf "/r/CapableOf", uriOf "/c/en/cat", uriOf "/c/en/sleep"]
    (by decide) (by decide) (by decide) (by decide)).2.2
  rw [h]
  decide

/-- C6: `parse_compound_uri` fails exactly on the two malformation
conditions, checked in order: after stripping leading slashes and
splitting, a final segment other than the closing bracket raises the
end-marker error first, an absent opening bracket raises the list-marker
error, and every other input yields an operator and argument pair. -/
theorem c6_parse_errors (uri : List Char) :
    ((splitSlash (uri.dropWhile isSlash)).getLastD [] ≠ [']'] →
      parse_compound_uri uri = Except.error UriError.mustEndWithBracket) ∧
    ((splitSlash (uri.dropWhile isSlash)).getLastD [] = [']'] →
      ['['] ∉ splitSlash (uri.dropWhile isSlash) →
      parse_compound_uri uri = Except.error UriError.mustContainBracket) ∧
    ((splitSlash (uri.dropWhile isSlash)).getLastD [] = [']'] →
      ['['] ∈ splitSlash (uri.dropWhile isSlash) →
      ∃ op args, parse_compound_uri uri = Except.ok (op, args)) := by
  refine ⟨fun h1 => ?_, fun h1 h2 => ?_, fun h1 h2 => ?_⟩
  · simp only [parse_compound_uri]
    rw [if_pos h1]
  · simp only [parse_compound_uri]
    rw [if_neg (fun hne => hne h1), if_pos h2]
  · simp only [parse_compound_uri]
    rw [if_neg (fun hne => hne h1), if_neg (fun hn => hn h2)]
    exact ⟨_, _, rfl⟩

/-- C6 witness: a URI not ending in the closing-bracket segment raises the
end-marker error. -/
theorem c6_parse_errors_witness :
    parse_compound_uri (uriOf "/x") = Except.error UriError.mustEndWithBracket :=
  (c6_parse_errors (uriOf "/x")).1 (by decide)

/-- C7: `conjunction_uri` and `disjunction_uri` share the three-case
contract: zero sources fail with the respective emptiness error, one
source is returned unchanged without wrapping, and two or more string
sources are wrapped in a `/and` respectively `/or` compound, with the
documented two-source disjunction example. -/
theorem c7_conjunction_disjunction (v : PyVal) (ss : List (List Char))
    (h : 2 ≤ ss.length) :
    conjunction_uri [] = Except.error UriError.emptyConjunction ∧
    disjunction_uri [] = Except.error UriError.emptyDisjunction ∧
    conjunction_uri [v] = Except.ok v ∧
    disjunction_uri [v] = Except.ok v ∧
    conjunction_uri (ss.map PyVal.str) =
      Except.ok (PyVal.str (compound_uri (uriOf "/and") ss)) ∧
    disjunction_uri (ss.map PyVal.str) =
      Except.ok (PyVal.str (compound_uri (uriOf "/or") ss)) ∧
    disjunction_uri [PyVal.str (uriOf "/s/x"), PyVal.str (uriOf "/s/y")] =
      Except.ok (PyVal.str (uriOf "/or/[/s/x/,/s/y/]")) := by
  obtain ⟨s1, s2, rest, rfl⟩ : ∃ s1 s2 rest, ss = s1 :: s2 :: rest := by
    cases ss with
    | nil => simp at h
    | cons s1 t =>
      cases t with
      | nil => simp at h
      | cons s2 rest => exact ⟨s1, s2, rest, rfl⟩
  refine ⟨rfl, rfl, rfl, rfl, ?_, ?_, rfl⟩
  · simp only [List.map_cons, conjunction_uri, compound_uri_dyn, allStrs, allStrs_map_str]
    rfl
  · simp only [List.map_cons, disjunction_uri, compound_uri_dyn, allStrs, allStrs_map_str]
    rfl

/-- C7 witness: a concrete two-source conjunction is wrapped in a `/and`
compound. -/
theorem c7_conjunction_disjunction_witness :
    conjunction_uri ([uriOf "/s/x", uriOf "/s/y"].map PyVal.str) =
      Except.ok (PyVal.str (compound_uri (uriOf "/and") [uriOf "/s/x", uriOf "/s/y"])) :=
  (c7_conjunction_disjunction (PyVal.str []) [uriOf "/s/x", uriOf "/s/y"]
    (by decide)).2.2.2.2.1

/-- C8: `concept_uri` fails with the invalid-argument error exactly when a
disambiguation is supplied without a part of speech; otherwise it joins
`/c`, the unmodified language, the normalized text, and when present the
unmodified part of speech and the normalized disambiguation, as in the
documented four-segment example. -/
theorem c8_concept_uri (fixText : List Char → List Char) (lang text : List Char) :
    (∀ d, concept_uri fixText lang text none (some d) =
      Except.error UriError.invalidArgument) ∧
    concept_uri fixText lang text none none =
      Except.ok (join_uri [uriOf "/c", lang, normalize_text fixText text]) ∧
    (∀ p, concept_uri fixText lang text (some p) none =
      Except.ok (join_uri [uriOf "/c", lang, normalize_text fixText text, p])) ∧
    (∀ p d, concept_uri fixText lang text (some p) (some d) =
      Except.ok (join_uri [uriOf "/c", lang, normalize_text fixText text, p,
        normalize_text fixText d])) ∧
    concept_uri id (uriOf "en") (uriOf "cat") (some (uriOf "n")) (some (uriOf "feline")) =
      Except.ok (uriOf "/c/en/cat/n/feline") := by
  exact ⟨fun d => rfl, rfl, fun p => rfl, fun p d => rfl, by decide⟩

/-- C8 witness: a disambiguation without a part of speech raises the
invalid-argument error at a concrete input. -/
theorem c8_concept_uri_witness :
    concept_uri id (uriOf "en") (uriOf "cat") none (some (uriOf "feline")) =
      Except.error UriError.invalidArgument :=
  (c8_concept_uri id (uriOf "en") (uriOf "cat")).1 (uriOf "feline")

/-- C9: under the stated assumption that the external repair function is
the identity on already-normalized output, `normalize_text` is idempotent;
moreover every output has no leading or trailing whitespace and contains
no space character. -/
theorem c9_normalize_text (fixText : List Char → List Char) (x : List Char)
    (h : fixText (normalize_text fixText x) = normalize_text fixText x) :
    normalize_text fixText (normalize_text fixText x) = normalize_text fixText x ∧
    (∀ c, (normalize_text fixText x).head? = some c → pyIsSpace c = false) ∧
    (∀ c, (normalize_text fixText x).getLast? = some c → pyIsSpace c = false) ∧
    ' ' ∉ normalize_text fixText x :=
  ⟨normalize_text_idem fixText x h, normalize_text_head_not_space fixText x,
    normalize_text_getLast_not_space fixText x, normalize_text_no_space fixText x⟩

/-- C9 witness: a concrete normalization together with its idempotence,
using the identity as the external repair function. -/
theorem c9_normalize_text_witness :
    normalize_text id (uriOf " Cat Dog ") = uriOf "cat_dog" ∧
    normalize_text id (normalize_text id (uriOf " Cat Dog ")) =
      normalize_text id (uriOf " Cat Dog ") ∧
    ' ' ∉ normalize_text id (uriOf " Cat Dog ") :=
  ⟨by decide, (c9_normalize_text id (uriOf " Cat Dog ") rfl).1,
    (c9_normalize_text id (uriOf " Cat Dog ") rfl).2.2.2⟩

/-- C10: every argument string in a successful parse result begins with
exactly one slash, and ends with a slash only when it is exactly the
one-character slash string (the empty-argument case), because each chunk
is rejoined, stripped of surrounding slashes, and re-prefixed with one
slash. -/
theorem c10_parse_args_shape (uri : List Char) (op : List Char) (args : List (List Char))
    (h : parse_compound_uri uri = Except.ok (op, args)) :
    ∀ a ∈ args, a.head? = some '/' ∧ (a.drop 1).head? ≠ some '/' ∧
      (a ≠ ['/'] → a.getLast? ≠ some '/') := by
  intro a ha
  obtain ⟨x, hx⟩ := parse_chunks_shape uri op args h a ha
  subst hx
  refine ⟨rfl, ?_, ?_⟩
  · simpa using stripSlash_head?_ne x
  · intro hne
    have hsne : stripSlash x ≠ [] := fun e => hne (by rw [e])
    rw [getLast?_cons_of_ne_nil '/' hsne]
    exact stripSlash_getLast?_ne x

/-- C10 witness: the empty-argument example parses to the one-character
slash argument followed by a plain argument, both of the claimed shape. -/
theorem c10_parse_args_shape_witness :
    parse_compound_uri (uriOf "/op/[/,/x/]") =
      Except.ok (uriOf "/op", [['/'], uriOf "/x"]) ∧
    (['/'] : List Char).head? = some '/' ∧
    (uriOf "/x").head? = some '/' ∧ (uriOf "/x").getLast? ≠ some '/' := by
  have h := c10_parse_args_shape (uriOf "/op/[/,/x/]") (uriOf "/op") [['/'], uriOf "/x"]
    (by decide)
  exact ⟨by decide, (h ['/'] (by decide)).1, (h (uriOf "/x") (by decide)).1,
    (h (uriOf "/x") (by decide)).2.2 (by decide)⟩
